import Mathlib

/-!
# CRUD file I/O driver (`crud_file_io.c`)

A shallow embedding of the file layer that `crud_file_io.c` builds on top of
the CRUD object-store bus, and theorems about it.

Conventions of the embedding:

* C integers are `Nat` / `Int`; every place where the C code computes in a
  fixed width reduces explicitly (`u32`, `i32`, `size_t`, `% 2 ^ 64`).
* `crud_file_table` is indexed by `Int`: the indices `0 ≤ i < CRUD_MAX_TOTAL_FILES`
  are the array, the other indices are the memory that an unchecked index
  reaches, counted in entries.  Theorems speak about indices outside the array
  only to show that the code accesses them.
* byte buffers are functions `Nat → Nat` (offset to byte value); `memcpy`
  overwrites a range of offsets.
* `crud_bus_request` is external to the driver.  It is a parameter
  (`CrudEnv.bus`): a function of the transactions made so far, the request
  word and the contents of the buffer passed with it, to the response word and
  the contents of that buffer afterwards.  Every transaction is appended to
  `CrudState.bus_log`.  The bus writes the buffer only for a READ request
  (the interface of the bus); after any other request the driver's buffer
  holds what it held before.
* the constants of the headers `crud_file_io.h` / `crud_driver.h`, which are
  not part of the source file, are the fields of `CrudHeader`.
* a C string is the `String` of its bytes before the terminating NUL.  The
  `filename` field of a table entry is an array of `CRUD_MAX_PATH_LENGTH`
  bytes: it holds the strings of fewer than `CRUD_MAX_PATH_LENGTH` bytes.  The
  embedding describes `strcpy` into that field for the paths that fit it
  (`strlen path < CRUD_MAX_PATH_LENGTH`); the source makes no such check, and
  what a longer path overwrites depends on the layout of the entry in memory,
  which is not modelled.  A theorem that depends on what `crud_open` stores
  for its path carries the bound as a hypothesis.
* `memcpy` is a total function on buffers.  In C a copy of more bytes than
  the buffers hold faults (this happens when a count that is negative as
  `int32_t` is converted to `size_t`, that is for a count below 0 or an entry
  of `2 ^ 31` bytes or more); the embedding gives such a call a value all the
  same.  Entries of the data model are shorter than `2 ^ 24` bytes, the width
  of the length field of a request.
-/

namespace CrudDriver

/-! ## Data model -/

/-- Constants that `crud_file_io.c` takes from its headers: the capacity of the
file table, the size in bytes of the `filename` array of an entry, the
operation codes, the two flag values and `sizeof(crud_file_table)`. -/
structure CrudHeader where
  CRUD_MAX_TOTAL_FILES : Nat
  CRUD_MAX_PATH_LENGTH : Nat
  CRUD_INIT : Nat
  CRUD_FORMAT : Nat
  CRUD_CREATE : Nat
  CRUD_READ : Nat
  CRUD_UPDATE : Nat
  CRUD_DELETE : Nat
  CRUD_CLOSE : Nat
  CRUD_NULL_FLAG : Nat
  CRUD_PRIORITY_OBJECT : Nat
  sizeof_crud_file_table : Nat

/-- One entry of the file table (`CrudFileAllocationType`): `filename` is the
C string held in the array `char filename[CRUD_MAX_PATH_LENGTH]` of the entry
(its bytes before the first NUL), `is_open` is the truth value of the `open`
byte.  The array holds a string of fewer than `CRUD_MAX_PATH_LENGTH` bytes;
the type does not enforce the bound, the statements about stored paths do. -/
structure CrudFileAllocationType where
  filename : String
  object_id : Nat
  position : Nat
  length : Nat
  is_open : Bool
deriving DecidableEq, Repr

/-- The entry that `memset(.., 0, ..)` leaves: empty name, all fields zero. -/
def zero_entry : CrudFileAllocationType :=
  { filename := "", object_id := 0, position := 0, length := 0, is_open := false }

/-- What a `void *buf` argument of `crud_bus_request` points to: nothing
(`NULL`), a byte buffer, or the file table. -/
inductive Buffer where
  | null : Buffer
  | bytes (data : Nat → Nat) : Buffer
  | table (t : Int → CrudFileAllocationType) : Buffer

/-- Bytes held by a buffer after a bus call; `old` when the bus left no bytes. -/
def Buffer.asBytes (old : Nat → Nat) : Buffer → Nat → Nat
  | .bytes d => d
  | _ => old

/-- Table held by a buffer after a bus call; `old` when the bus left no table. -/
def Buffer.asTable (old : Int → CrudFileAllocationType) : Buffer → Int → CrudFileAllocationType
  | .table t => t
  | _ => old

/-- One completed bus transaction: the request word, the buffer contents
passed with it, and the response word. -/
structure BusCall where
  request : Nat
  buf : Buffer
  response : Nat

/-- The world outside the driver: the bus, and the contents of memory that the
driver allocates without initialising it (`malloc`, variable-length arrays). -/
structure CrudEnv where
  bus : List BusCall → Nat → Buffer → Nat × Buffer
  uninit : Nat → Nat

/-- The driver's globals (`crud_file_table`, `crudInitialized`) and the list of
bus transactions made so far. -/
structure CrudState where
  crud_file_table : Int → CrudFileAllocationType
  crudInitialized : Bool
  bus_log : List BusCall

/-- Store `e` at index `fd` of the file table. -/
def CrudState.setEntry (s : CrudState) (fd : Int) (e : CrudFileAllocationType) : CrudState :=
  { s with crud_file_table := Function.update s.crud_file_table fd e }

/-! ## Machine arithmetic and memory -/

/-- Conversion to `uint32_t`. -/
def u32 (x : Int) : Nat := (x % 2 ^ 32).toNat

/-- Conversion to `int32_t` (two's complement). -/
def i32 (x : Int) : Int :=
  if x % 2 ^ 32 < 2 ^ 31 then x % 2 ^ 32 else x % 2 ^ 32 - 2 ^ 32

/-- Conversion to `size_t` (64 bits). -/
def size_t (x : Int) : Nat := (x % 2 ^ 64).toNat

/-- The call `memcpy(&dest[destOff], &src[srcOff], n)` for `n` bytes that lie
within both buffers.  In the source a count that was negative as `int32_t`
arrives as a `size_t` near `2 ^ 64` and the copy faults; here the function
is total. -/
def memcpy (dest : Nat → Nat) (destOff : Nat) (src : Nat → Nat) (srcOff : Nat) (n : Nat) :
    Nat → Nat :=
  fun i => if destOff ≤ i ∧ i < destOff + n then src (srcOff + (i - destOff)) else dest i

/-- The call `strlen(path)`: the number of bytes before the terminating NUL. -/
def strlen (path : String) : Nat := path.utf8ByteSize

/-- Return value `-1` of a function declared `uint16_t`. -/
def FAIL16 : Nat := 65535

/-- Return value `-1` of a function declared `uint8_t`. -/
def FAIL8 : Nat := 255

/-! ## The driver -/

/-- The call `crud_bus_request(request, buf)`: ask the bus, record the transaction. -/
def crud_bus_request (E : CrudEnv) (s : CrudState) (request : Nat) (buf : Buffer) :
    Nat × Buffer × CrudState :=
  let r := E.bus s.bus_log request buf
  (r.1, r.2, { s with bus_log := s.bus_log ++ [{ request := request, buf := buf, response := r.1 }] })

/-- Source `create_crudrequest`: shifts and additions on a 64-bit word. -/
def create_crudrequest (objID reqType length flags : Nat) : Nat :=
  let request := (objID % 2 ^ 32) % 2 ^ 64
  let request := (request * 2 ^ 4) % 2 ^ 64
  let request := (request + reqType) % 2 ^ 64
  let request := (request * 2 ^ 24) % 2 ^ 64
  let request := (request + length % 2 ^ 32) % 2 ^ 64
  let request := (request * 2 ^ 3) % 2 ^ 64
  let request := (request + flags % 2 ^ 8) % 2 ^ 64
  (request * 2) % 2 ^ 64

/-- Source `extract_crudresponse`: returns 1 only when the success bit is set
AND `fh` lies in `0 .. CRUD_MAX_TOTAL_FILES`; otherwise it stores the upper 32
bits of the response in entry `fh` and returns 0. -/
def extract_crudresponse (H : CrudHeader) (s : CrudState) (response : Nat) (fh : Int) :
    Nat × CrudState :=
  if response % 2 = 1 ∧ 0 ≤ fh ∧ fh ≤ (H.CRUD_MAX_TOTAL_FILES : Int) then (1, s)
  else
    (0, s.setEntry fh { s.crud_file_table fh with object_id := (response / 2 ^ 32) % 2 ^ 32 })

/-- Source `crud_init`. -/
def crud_init (H : CrudHeader) (E : CrudEnv) (s : CrudState) : Nat × CrudState :=
  let request := create_crudrequest 0 H.CRUD_INIT 0 0
  let r := crud_bus_request E s request Buffer.null
  if r.1 % 2 = 1 then (FAIL8, r.2.2)
  else (0, { r.2.2 with crudInitialized := true })

/-- The file table as the bus sees it when the driver passes `crud_file_table`:
the `CRUD_MAX_TOTAL_FILES` entries of the array. -/
def table_image (H : CrudHeader) (t : Int → CrudFileAllocationType) :
    Int → CrudFileAllocationType :=
  fun i => if 0 ≤ i ∧ i < (H.CRUD_MAX_TOTAL_FILES : Int) then t i else zero_entry

/-- The file table after the bus wrote the image `img` over the array. -/
def table_store (H : CrudHeader) (t img : Int → CrudFileAllocationType) :
    Int → CrudFileAllocationType :=
  fun i => if 0 ≤ i ∧ i < (H.CRUD_MAX_TOTAL_FILES : Int) then img i else t i

/-- Source `crud_format`. -/
def crud_format (H : CrudHeader) (E : CrudEnv) (s : CrudState) : Nat × CrudState :=
  let i := crud_init H E s
  if i.1 ≠ 0 then (FAIL16, i.2)
  else
    let s := i.2
    let request := create_crudrequest 0 H.CRUD_FORMAT 0 H.CRUD_NULL_FLAG
    let r := crud_bus_request E s request Buffer.null
    if r.1 % 2 = 1 then (FAIL16, r.2.2)
    else
      let s := r.2.2
      let s := { s with crud_file_table := table_store H s.crud_file_table (fun _ => zero_entry) }
      let request :=
        create_crudrequest 0 H.CRUD_CREATE H.sizeof_crud_file_table H.CRUD_PRIORITY_OBJECT
      let r := crud_bus_request E s request (Buffer.table (table_image H s.crud_file_table))
      if r.1 % 2 = 1 then (FAIL16, r.2.2) else (0, r.2.2)

/-- Source `crud_mount`. -/
def crud_mount (H : CrudHeader) (E : CrudEnv) (s : CrudState) : Nat × CrudState :=
  let s := if s.crudInitialized = true then s else (crud_init H E s).2
  if s.crudInitialized = true then
    let request :=
      create_crudrequest 0 H.CRUD_READ H.sizeof_crud_file_table H.CRUD_PRIORITY_OBJECT
    let img := table_image H s.crud_file_table
    let r := crud_bus_request E s request (Buffer.table img)
    let s := { r.2.2 with crud_file_table := table_store H s.crud_file_table (r.2.1.asTable img) }
    if r.1 % 2 = 1 then (FAIL16, s) else (0, s)
  else (FAIL16, s)

/-- Source `crud_unmount`. -/
def crud_unmount (H : CrudHeader) (E : CrudEnv) (s : CrudState) : Nat × CrudState :=
  if s.crudInitialized = true then
    let request :=
      create_crudrequest 0 H.CRUD_UPDATE H.sizeof_crud_file_table H.CRUD_PRIORITY_OBJECT
    let r := crud_bus_request E s request (Buffer.table (table_image H s.crud_file_table))
    if r.1 % 2 = 1 then (FAIL16, r.2.2)
    else
      let s := r.2.2
      let request := create_crudrequest 0 H.CRUD_CLOSE 0 H.CRUD_NULL_FLAG
      let r := crud_bus_request E s request Buffer.null
      if r.1 % 2 = 1 then (FAIL16, r.2.2) else (0, r.2.2)
  else (FAIL16, s)

/-- The `for` loop of `crud_open`, started with `i` and `index` and with `fuel`
iterations left: `(found, i, index)` when the loop ends. -/
def crud_open_loop (t : Int → CrudFileAllocationType) (path : String) :
    Nat → Nat → Nat → Bool × Nat × Nat
  | 0, i, index => (false, i, index)
  | fuel + 1, i, index =>
    if path = (t i).filename then (true, i, index)
    else if i < index ∧ (t i).filename = "" then crud_open_loop t path fuel (i + 1) i
    else crud_open_loop t path fuel (i + 1) index

/-- Source `crud_open`.  The call `strcpy(crud_file_table[index].filename, path)`
is the assignment `filename := path`: that is what the copy does for a path
with `strlen path < CRUD_MAX_PATH_LENGTH`.  The source does not check the
length; a longer path runs over `object_id`, `position`, `length`, `open` and
the entries that follow, which this definition does not describe. -/
def crud_open (H : CrudHeader) (E : CrudEnv) (s : CrudState) (path : String) : Int × CrudState :=
  let s := if s.crudInitialized = true then s else (crud_init H E s).2
  if s.crudInitialized = true then
    let l := crud_open_loop s.crud_file_table path H.CRUD_MAX_TOTAL_FILES 0 H.CRUD_MAX_TOTAL_FILES
    let i : Int := l.2.1
    let index : Int := l.2.2
    if l.1 = true then
      (i, s.setEntry i { s.crud_file_table i with is_open := true })
    else
      let request := create_crudrequest 0 H.CRUD_CREATE 0 0
      let r := crud_bus_request E s request Buffer.null
      let x := extract_crudresponse H r.2.2 r.1 index
      if x.1 = 0 then
        let s := x.2
        (index, s.setEntry index
          { s.crud_file_table index with
            filename := path, position := 0, length := 0, is_open := true })
      else (-1, x.2)
  else (-1, s)

/-- Source `crud_close`. -/
def crud_close (H : CrudHeader) (s : CrudState) (fd : Int) : Int × CrudState :=
  if 0 ≤ fd ∧ fd ≤ (H.CRUD_MAX_TOTAL_FILES : Int) ∧ (s.crud_file_table fd).is_open = true then
    (0, s.setEntry fd { s.crud_file_table fd with is_open := false, position := 0 })
  else (-1, s)

/-- Source `crud_read`: the result is the return value, the caller's buffer
afterwards, and the state. -/
def crud_read (H : CrudHeader) (E : CrudEnv) (s : CrudState) (fd : Int) (buf : Nat → Nat)
    (count : Int) : Int × (Nat → Nat) × CrudState :=
  let tempBuf := E.uninit
  if s.crudInitialized = true ∧ 0 ≤ fd ∧ fd ≤ (H.CRUD_MAX_TOTAL_FILES : Int) ∧
      (s.crud_file_table fd).is_open = true then
    let e := s.crud_file_table fd
    let readBytes : Int :=
      if u32 ((e.position : Int) + count) ≤ e.length then count
      else i32 ((e.length : Int) - (e.position : Int))
    let request := create_crudrequest e.object_id H.CRUD_READ e.length 0
    let r := crud_bus_request E s request (Buffer.bytes tempBuf)
    let tempBuf := r.2.1.asBytes tempBuf
    let buf := memcpy buf 0 tempBuf e.position (size_t readBytes)
    if r.1 % 2 = 0 then
      (readBytes, buf, r.2.2.setEntry fd { e with position := u32 ((e.position : Int) + readBytes) })
    else (-1, buf, r.2.2)
  else (-1, buf, s)

/-- Source `crud_write`. -/
def crud_write (H : CrudHeader) (E : CrudEnv) (s : CrudState) (fd : Int) (buf : Nat → Nat)
    (count : Int) : Int × CrudState :=
  let oldData := E.uninit
  let newData := E.uninit
  if s.crudInitialized = true ∧ 0 ≤ fd ∧ fd ≤ (H.CRUD_MAX_TOTAL_FILES : Int) ∧
      (s.crud_file_table fd).is_open = true then
    let oldPos := (s.crud_file_table fd).position
    let s := s.setEntry fd { s.crud_file_table fd with position := 0 }
    let rd := crud_read H E s fd oldData (i32 (s.crud_file_table fd).length)
    let oldData := rd.2.1
    let s := rd.2.2
    let newData := memcpy newData 0 oldData 0 (s.crud_file_table fd).length
    let newData := memcpy newData oldPos buf 0 (size_t count)
    if u32 ((oldPos : Int) + count) > (s.crud_file_table fd).length then
      let request := create_crudrequest (s.crud_file_table fd).object_id H.CRUD_DELETE 0 0
      let d := crud_bus_request E s request (Buffer.bytes newData)
      if d.1 % 2 = 0 then
        let request := create_crudrequest 0 H.CRUD_CREATE (u32 ((oldPos : Int) + count)) 0
        let r := crud_bus_request E d.2.2 request (Buffer.bytes newData)
        let x := extract_crudresponse H r.2.2 r.1 fd
        if x.1 = 0 then
          let s := x.2
          (count, s.setEntry fd
            { s.crud_file_table fd with
              position := u32 ((oldPos : Int) + count), length := u32 ((oldPos : Int) + count) })
        else (-1, x.2)
      else (-1, d.2.2)
    else
      let request :=
        create_crudrequest (s.crud_file_table fd).object_id H.CRUD_UPDATE
          (s.crud_file_table fd).length 0
      let r := crud_bus_request E s request (Buffer.bytes newData)
      let x := extract_crudresponse H r.2.2 r.1 fd
      if x.1 = 0 then
        let s := x.2
        (count, s.setEntry fd { s.crud_file_table fd with position := u32 ((oldPos : Int) + count) })
      else (-1, x.2)
  else (-1, s)

/-- Source `crud_seek`. -/
def crud_seek (H : CrudHeader) (s : CrudState) (fd : Int) (loc : Nat) : Int × CrudState :=
  if s.crudInitialized = true ∧ 0 ≤ fd ∧ fd ≤ (H.CRUD_MAX_TOTAL_FILES : Int) then
    if loc ≤ (s.crud_file_table fd).length then
      (0, s.setEntry fd { s.crud_file_table fd with position := loc })
    else (-1, s)
  else (-1, s)

/-! ## An example environment

Concrete header values, a store that never fails and a store that fails one
kind of request; the theorems below are instantiated on them. -/

/-- Example header values: a table of eight entries of 144 bytes with a
filename array of 128 bytes, the operation codes in the order INIT, FORMAT,
CREATE, READ, UPDATE, DELETE, CLOSE. -/
def demo_header : CrudHeader :=
  { CRUD_MAX_TOTAL_FILES := 8
    CRUD_MAX_PATH_LENGTH := 128
    CRUD_INIT := 0
    CRUD_FORMAT := 1
    CRUD_CREATE := 2
    CRUD_READ := 3
    CRUD_UPDATE := 4
    CRUD_DELETE := 5
    CRUD_CLOSE := 6
    CRUD_NULL_FLAG := 0
    CRUD_PRIORITY_OBJECT := 1
    sizeof_crud_file_table := 1152 }

/-- Operation-code field of a transaction word (bits 28 to 31). -/
def demo_opcode (w : Nat) : Nat := (w / 2 ^ 28) % 16

/-- Object-identifier field of a transaction word (upper 32 bits). -/
def demo_oid (w : Nat) : Nat := (w / 2 ^ 32) % 2 ^ 32

/-- The buffer of the latest CREATE or UPDATE in `log` that was answered under
object identifier `oid`. -/
def demo_stored (oid : Nat) : List BusCall → Option Buffer
  | [] => none
  | c :: cs =>
    match demo_stored oid cs with
    | some b => some b
    | none =>
      if (demo_opcode c.request = 2 ∨ demo_opcode c.request = 4) ∧ demo_oid c.response = oid
      then some c.buf else none

/-- A store that never fails: CREATE of an ordinary object answers with a fresh
object identifier, READ hands back the buffer last stored under the
identifier, every other request is echoed; the success bit of every response
is 0. -/
def demo_bus (log : List BusCall) (request : Nat) (buf : Buffer) : Nat × Buffer :=
  if demo_opcode request = 2 ∧ (request / 2) % 8 = 0 then
    (2 * ((log.length + 1) * 2 ^ 31 + (request / 2) % 2 ^ 31), buf)
  else if demo_opcode request = 3 then
    (2 * (request / 2), (demo_stored (demo_oid request) log).getD buf)
  else (2 * (request / 2), buf)

/-- The store `demo_bus`, except that every request with operation code `bad`
is answered with the success bit set and leaves the buffer alone. -/
def demo_bus_failing (bad : Nat) (log : List BusCall) (request : Nat) (buf : Buffer) :
    Nat × Buffer :=
  if demo_opcode request = bad then (2 * (request / 2) + 1, buf) else demo_bus log request buf

/-- Environment with the store that never fails; fresh memory holds 0xEE. -/
def demo_env : CrudEnv := { bus := demo_bus, uninit := fun _ => 0xEE }

/-- Environment whose store fails every request with operation code `bad`. -/
def demo_env_failing (bad : Nat) : CrudEnv :=
  { bus := demo_bus_failing bad, uninit := fun _ => 0xEE }

/-- File table with one file `a.txt` in slot 0 (object 1, open flag `o`, cursor
`pos`, `len` bytes); every other slot is free. -/
def demo_table (o : Bool) (pos len : Nat) : Int → CrudFileAllocationType :=
  fun i =>
    if i = 0 then
      { filename := "a.txt", object_id := 1, position := pos, length := len, is_open := o }
    else zero_entry

/-- Initialized session over `demo_table o pos len`, after one transaction that
stored bytes 0xAB under object 1. -/
def demo_state (o : Bool) (pos len : Nat) : CrudState :=
  { crud_file_table := demo_table o pos len
    crudInitialized := true
    bus_log :=
      [{ request := create_crudrequest 1 4 100 0
         buf := Buffer.bytes (fun _ => 0xAB)
         response := create_crudrequest 1 4 100 0 }] }

/-! ## Notions used in the statements -/

/-- The transactions made on the way from state `s` to state `t`. -/
def calls_since (s t : CrudState) : List BusCall := t.bus_log.drop s.bus_log.length

/-- Some transaction of the list was answered with the success bit set. -/
def any_failed (calls : List BusCall) : Prop := ∃ c ∈ calls, c.response % 2 = 1

/-- The READ request for the whole object of entry `fd`, as `crud_read` builds it. -/
def read_request (H : CrudHeader) (s : CrudState) (fd : Int) : Nat :=
  create_crudrequest (s.crud_file_table fd).object_id H.CRUD_READ (s.crud_file_table fd).length 0

/-- The bytes of the file of entry `fd` in state `s`: what the bus delivers for
a READ of the entry's object at this point. -/
def file_bytes (H : CrudHeader) (E : CrudEnv) (s : CrudState) (fd : Int) : Nat → Nat :=
  (E.bus s.bus_log (read_request H s fd) (Buffer.bytes E.uninit)).2.asBytes E.uninit

/-- The store never fails: the success bit of every response is 0. -/
def bus_never_fails (E : CrudEnv) : Prop :=
  ∀ (log : List BusCall) (request : Nat) (buf : Buffer), (E.bus log request buf).1 % 2 = 0

/-- The READ transaction that `crud_read` makes in state `s` for entry `fd`. -/
def read_call (H : CrudHeader) (E : CrudEnv) (s : CrudState) (fd : Int) : BusCall :=
  { request := read_request H s fd
    buf := Buffer.bytes E.uninit
    response := (E.bus s.bus_log (read_request H s fd) (Buffer.bytes E.uninit)).1 }

/-- The call of `crud_read` inside `crud_write`: the position of entry `fd` is
0 and the count is the length of the entry. -/
def write_inner_read (H : CrudHeader) (E : CrudEnv) (s : CrudState) (fd : Int) :
    Int × (Nat → Nat) × CrudState :=
  crud_read H E (s.setEntry fd { s.crud_file_table fd with position := 0 }) fd E.uninit
    (i32 ((s.setEntry fd { s.crud_file_table fd with position := 0 }).crud_file_table fd).length)

/-- The buffer `newData` of `crud_write` after its two `memcpy` calls. -/
def write_merged (H : CrudHeader) (E : CrudEnv) (s : CrudState) (fd : Int) (buf : Nat → Nat)
    (count : Int) : Nat → Nat :=
  memcpy
    (memcpy E.uninit 0 (write_inner_read H E s fd).2.1 0
      ((write_inner_read H E s fd).2.2.crud_file_table fd).length)
    (s.crud_file_table fd).position buf 0 (size_t count)

/-- The DELETE transaction of `crud_write` (made when the write grows the file). -/
def delete_call (H : CrudHeader) (E : CrudEnv) (s : CrudState) (fd : Int) (buf : Nat → Nat)
    (count : Int) : BusCall :=
  { request :=
      create_crudrequest ((write_inner_read H E s fd).2.2.crud_file_table fd).object_id
        H.CRUD_DELETE 0 0
    buf := Buffer.bytes (write_merged H E s fd buf count)
    response :=
      (E.bus (write_inner_read H E s fd).2.2.bus_log
        (create_crudrequest ((write_inner_read H E s fd).2.2.crud_file_table fd).object_id
          H.CRUD_DELETE 0 0)
        (Buffer.bytes (write_merged H E s fd buf count))).1 }

/-- The CREATE transaction of `crud_write` (made after a successful DELETE). -/
def create_call (H : CrudHeader) (E : CrudEnv) (s : CrudState) (fd : Int) (buf : Nat → Nat)
    (count : Int) : BusCall :=
  { request :=
      create_crudrequest 0 H.CRUD_CREATE (u32 (((s.crud_file_table fd).position : Int) + count)) 0
    buf := Buffer.bytes (write_merged H E s fd buf count)
    response :=
      (E.bus ((write_inner_read H E s fd).2.2.bus_log ++ [delete_call H E s fd buf count])
        (create_crudrequest 0 H.CRUD_CREATE
          (u32 (((s.crud_file_table fd).position : Int) + count)) 0)
        (Buffer.bytes (write_merged H E s fd buf count))).1 }

/-- The UPDATE transaction of `crud_write` (made when the write fits the file). -/
def update_call (H : CrudHeader) (E : CrudEnv) (s : CrudState) (fd : Int) (buf : Nat → Nat)
    (count : Int) : BusCall :=
  { request :=
      create_crudrequest ((write_inner_read H E s fd).2.2.crud_file_table fd).object_id
        H.CRUD_UPDATE ((write_inner_read H E s fd).2.2.crud_file_table fd).length 0
    buf := Buffer.bytes (write_merged H E s fd buf count)
    response :=
      (E.bus (write_inner_read H E s fd).2.2.bus_log
        (create_crudrequest ((write_inner_read H E s fd).2.2.crud_file_table fd).object_id
          H.CRUD_UPDATE ((write_inner_read H E s fd).2.2.crud_file_table fd).length 0)
        (Buffer.bytes (write_merged H E s fd buf count))).1 }

/-- The INIT transaction that `crud_init` makes in state `s`. -/
def init_call (H : CrudHeader) (E : CrudEnv) (s : CrudState) : BusCall :=
  { request := create_crudrequest 0 H.CRUD_INIT 0 0
    buf := Buffer.null
    response := (E.bus s.bus_log (create_crudrequest 0 H.CRUD_INIT 0 0) Buffer.null).1 }

/-- The FORMAT transaction of `crud_format` (made after a successful INIT). -/
def format_call (H : CrudHeader) (E : CrudEnv) (s : CrudState) : BusCall :=
  { request := create_crudrequest 0 H.CRUD_FORMAT 0 H.CRUD_NULL_FLAG
    buf := Buffer.null
    response :=
      (E.bus (s.bus_log ++ [init_call H E s])
        (create_crudrequest 0 H.CRUD_FORMAT 0 H.CRUD_NULL_FLAG) Buffer.null).1 }

/-- The CREATE transaction of `crud_format` for the priority object (made after
a successful FORMAT); its buffer is the file table, which was just cleared. -/
def format_create_call (H : CrudHeader) (E : CrudEnv) (s : CrudState) : BusCall :=
  { request :=
      create_crudrequest 0 H.CRUD_CREATE H.sizeof_crud_file_table H.CRUD_PRIORITY_OBJECT
    buf := Buffer.table (table_image H (table_store H s.crud_file_table (fun _ => zero_entry)))
    response :=
      (E.bus (s.bus_log ++ [init_call H E s] ++ [format_call H E s])
        (create_crudrequest 0 H.CRUD_CREATE H.sizeof_crud_file_table H.CRUD_PRIORITY_OBJECT)
        (Buffer.table
          (table_image H (table_store H s.crud_file_table (fun _ => zero_entry))))).1 }

/-- The CREATE transaction that `crud_open` makes in an initialized state `s`
when the path is not in the table. -/
def open_create_call (H : CrudHeader) (E : CrudEnv) (s : CrudState) : BusCall :=
  { request := create_crudrequest 0 H.CRUD_CREATE 0 0
    buf := Buffer.null
    response := (E.bus s.bus_log (create_crudrequest 0 H.CRUD_CREATE 0 0) Buffer.null).1 }

/-- The UPDATE transaction of `crud_unmount`: it sends the file table. -/
def unmount_update_call (H : CrudHeader) (E : CrudEnv) (s : CrudState) : BusCall :=
  { request :=
      create_crudrequest 0 H.CRUD_UPDATE H.sizeof_crud_file_table H.CRUD_PRIORITY_OBJECT
    buf := Buffer.table (table_image H s.crud_file_table)
    response :=
      (E.bus s.bus_log
        (create_crudrequest 0 H.CRUD_UPDATE H.sizeof_crud_file_table H.CRUD_PRIORITY_OBJECT)
        (Buffer.table (table_image H s.crud_file_table))).1 }

/-- The CLOSE transaction of `crud_unmount` (made after a successful UPDATE). -/
def unmount_close_call (H : CrudHeader) (E : CrudEnv) (s : CrudState) : BusCall :=
  { request := create_crudrequest 0 H.CRUD_CLOSE 0 H.CRUD_NULL_FLAG
    buf := Buffer.null
    response :=
      (E.bus (s.bus_log ++ [unmount_update_call H E s])
        (create_crudrequest 0 H.CRUD_CLOSE 0 H.CRUD_NULL_FLAG) Buffer.null).1 }

/-- The table that the bus delivers for a READ of the priority object in state
`s`: what `crud_mount` loads. -/
def table_read (H : CrudHeader) (E : CrudEnv) (s : CrudState) : Int → CrudFileAllocationType :=
  (E.bus s.bus_log
    (create_crudrequest 0 H.CRUD_READ H.sizeof_crud_file_table H.CRUD_PRIORITY_OBJECT)
    (Buffer.table (table_image H s.crud_file_table))).2.asTable (table_image H s.crud_file_table)

/-- The READ request for the priority object, as `crud_mount` builds it. -/
def priority_read_request (H : CrudHeader) : Nat :=
  create_crudrequest 0 H.CRUD_READ H.sizeof_crud_file_table H.CRUD_PRIORITY_OBJECT

/-- The table that transaction `c` wrote to the priority object, if `c` is a
successful CREATE or UPDATE of the priority object (the request words of
`crud_format` and `crud_unmount`) that carried a table. -/
def table_written (H : CrudHeader) (c : BusCall) : Option (Int → CrudFileAllocationType) :=
  if (c.request =
        create_crudrequest 0 H.CRUD_CREATE H.sizeof_crud_file_table H.CRUD_PRIORITY_OBJECT ∨
      c.request =
        create_crudrequest 0 H.CRUD_UPDATE H.sizeof_crud_file_table H.CRUD_PRIORITY_OBJECT) ∧
      c.response % 2 = 0 then
    match c.buf with
    | Buffer.table t => some t
    | _ => none
  else none

/-- The table last written to the priority object by the transactions of
`log` (the latest transaction is the last element of the list). -/
def last_table_written (H : CrudHeader) : List BusCall → Option (Int → CrudFileAllocationType)
  | [] => none
  | c :: cs =>
    match last_table_written H cs with
    | some t => some t
    | none => table_written H c

/-- After the transactions of `log`, a READ of the priority object returns the
table last written to it: whatever the buffer handed to the READ held before,
the bus fills it with a table that equals, slot by slot, the table of the
latest write in `log`. -/
def priority_reads_back (H : CrudHeader) (E : CrudEnv) (log : List BusCall) : Prop :=
  ∀ (buf : Buffer) (img : Int → CrudFileAllocationType),
    last_table_written H log = some img →
      ∃ t : Int → CrudFileAllocationType,
        (E.bus log (priority_read_request H) buf).2 = Buffer.table t ∧
        ∀ i : Int, 0 ≤ i → i < (H.CRUD_MAX_TOTAL_FILES : Int) → t i = img i

/-- The READ transaction that `crud_mount` makes in an initialized state `u`. -/
def mount_read_call (H : CrudHeader) (E : CrudEnv) (u : CrudState) : BusCall :=
  { request := priority_read_request H
    buf := Buffer.table (table_image H u.crud_file_table)
    response :=
      (E.bus u.bus_log (priority_read_request H)
        (Buffer.table (table_image H u.crud_file_table))).1 }

/-- The initialized session with the store history of state `t` and the table
memory zeroed: nothing of the table of `t` is left in memory. -/
def with_zeroed_table (t : CrudState) : CrudState :=
  { crud_file_table := fun _ => zero_entry, crudInitialized := true, bus_log := t.bus_log }

/-- File table whose eight slots all hold a file (`f0` .. `f7`, closed, empty). -/
def demo_full_table : Int → CrudFileAllocationType :=
  fun i =>
    { filename := ["f0", "f1", "f2", "f3", "f4", "f5", "f6", "f7"].getD i.toNat "f8"
      object_id := i.toNat + 1, position := 0, length := 0, is_open := false }

/-- Initialized session over `demo_full_table`, no transaction made yet. -/
def demo_full_state : CrudState :=
  { crud_file_table := demo_full_table, crudInitialized := true, bus_log := [] }

/-- Session right after `crud_format` and `crud_mount` over the example store,
started from an uninitialized session whose table memory held a file. -/
def demo_fresh_state : CrudState :=
  (crud_mount demo_header demo_env
    (crud_format demo_header demo_env
      { demo_state true 90 100 with crudInitialized := false }).2).2

/-- Cursor invariant of a file table: in every slot the position is at most
the length. -/
def cursor_ok (H : CrudHeader) (t : Int → CrudFileAllocationType) : Prop :=
  ∀ i : Int, 0 ≤ i → i < (H.CRUD_MAX_TOTAL_FILES : Int) → (t i).position ≤ (t i).length

/-- Path uniqueness of a file table: two slots of the table that hold the same
non-empty filename are the same slot. -/
def paths_unique (H : CrudHeader) (t : Int → CrudFileAllocationType) : Prop :=
  ∀ i j : Int, 0 ≤ i → i < (H.CRUD_MAX_TOTAL_FILES : Int) → 0 ≤ j →
    j < (H.CRUD_MAX_TOTAL_FILES : Int) → (t i).filename ≠ "" →
    (t i).filename = (t j).filename → i = j

/-! ## Basic facts -/

@[simp] theorem setEntry_crud_file_table (s : CrudState) (fd : Int) (e : CrudFileAllocationType) :
    (s.setEntry fd e).crud_file_table = Function.update s.crud_file_table fd e := rfl

@[simp] theorem setEntry_crudInitialized (s : CrudState) (fd : Int) (e : CrudFileAllocationType) :
    (s.setEntry fd e).crudInitialized = s.crudInitialized := rfl

@[simp] theorem setEntry_bus_log (s : CrudState) (fd : Int) (e : CrudFileAllocationType) :
    (s.setEntry fd e).bus_log = s.bus_log := rfl

theorem setEntry_self (s : CrudState) (fd : Int) :
    s.setEntry fd (s.crud_file_table fd) = s := by
  cases s
  simp [CrudState.setEntry]

theorem u32_of_nat_lt (n : Nat) (h : n < 2 ^ 32) : u32 (n : Int) = n := by
  unfold u32
  have h1 : ((n : Int) % 2 ^ 32) = (n : Int) := Int.emod_eq_of_lt (by positivity) (by exact_mod_cast h)
  rw [h1]
  simp

theorem u32_add (a : Nat) (c : Int) (hc : 0 ≤ c) (h : (a : Int) + c < 2 ^ 32) :
    u32 ((a : Int) + c) = a + c.toNat := by
  obtain ⟨n, rfl⟩ := Int.eq_ofNat_of_zero_le hc
  have h2 : a + n < 2 ^ 32 := by exact_mod_cast h
  have := u32_of_nat_lt (a + n) h2
  simpa using this

theorem crud_open_loop_found (t : Int → CrudFileAllocationType) (path : String) :
    ∀ (fuel k index i : Nat), k ≤ i → i < k + fuel → (t (i : Int)).filename = path →
      (∀ j : Nat, k ≤ j → j < i → (t (j : Int)).filename ≠ path) →
      (crud_open_loop t path fuel k index).1 = true ∧
        (crud_open_loop t path fuel k index).2.1 = i := by
  intro fuel
  induction fuel with
  | zero => intro k index i h1 h2; omega
  | succ f ih =>
    intro k index i h1 h2 hm hfirst
    by_cases hk : k = i
    · subst hk
      simp [crud_open_loop, hm]
    · have hne : ¬ path = (t (k : Int)).filename := fun h => hfirst k le_rfl (by omega) h.symm
      have hfirst2 : ∀ j : Nat, k + 1 ≤ j → j < i → (t (j : Int)).filename ≠ path :=
        fun j hj1 hj2 => hfirst j (by omega) hj2
      unfold crud_open_loop
      rw [if_neg hne]
      split
      · exact ih (k + 1) k i (by omega) (by omega) hm hfirst2
      · exact ih (k + 1) index i (by omega) (by omega) hm hfirst2

/-! ## Unfolding `crud_read` and `crud_write` -/

theorem i32_of_nat_lt (n : Nat) (h : n < 2 ^ 31) : i32 (n : Int) = n := by
  unfold i32
  have h1 : ((n : Int) % 2 ^ 32) = (n : Int) :=
    Int.emod_eq_of_lt (by positivity) (by have : (n : Int) < 2 ^ 31 := by exact_mod_cast h
                                          omega)
  rw [h1, if_pos (by exact_mod_cast h)]

/-- Unfolding of `crud_read` when its guard holds. -/
theorem crud_read_of_guard (H : CrudHeader) (E : CrudEnv) (s : CrudState) (fd : Int)
    (buf : Nat → Nat) (count : Int)
    (hinit : s.crudInitialized = true) (hlo : 0 ≤ fd) (hhi : fd ≤ (H.CRUD_MAX_TOTAL_FILES : Int))
    (hopen : (s.crud_file_table fd).is_open = true) (readBytes : Int)
    (hrb : readBytes = if u32 (((s.crud_file_table fd).position : Int) + count) ≤
        (s.crud_file_table fd).length then count
      else i32 (((s.crud_file_table fd).length : Int) - ((s.crud_file_table fd).position : Int))) :
    crud_read H E s fd buf count =
      (if (E.bus s.bus_log (read_request H s fd) (Buffer.bytes E.uninit)).1 % 2 = 0 then
        (readBytes,
          memcpy buf 0 (file_bytes H E s fd) (s.crud_file_table fd).position (size_t readBytes),
          { crud_file_table :=
              Function.update s.crud_file_table fd
                { s.crud_file_table fd with
                  position := u32 (((s.crud_file_table fd).position : Int) + readBytes) }
            crudInitialized := s.crudInitialized
            bus_log := s.bus_log ++
              [{ request := read_request H s fd, buf := Buffer.bytes E.uninit,
                 response := (E.bus s.bus_log (read_request H s fd) (Buffer.bytes E.uninit)).1 }] })
      else
        (-1,
          memcpy buf 0 (file_bytes H E s fd) (s.crud_file_table fd).position (size_t readBytes),
          { s with
            bus_log := s.bus_log ++
              [{ request := read_request H s fd, buf := Buffer.bytes E.uninit,
                 response := (E.bus s.bus_log (read_request H s fd) (Buffer.bytes E.uninit)).1 }] })) := by
  subst hrb
  have hg : s.crudInitialized = true ∧ 0 ≤ fd ∧ fd ≤ (H.CRUD_MAX_TOTAL_FILES : Int) ∧
      (s.crud_file_table fd).is_open = true := ⟨hinit, hlo, hhi, hopen⟩
  simp only [crud_read, if_pos hg, crud_bus_request, read_request, file_bytes, CrudState.setEntry]

theorem read_bytes_eq (p len : Nat) (count : Int) (hpos : p ≤ len) (h0 : 0 ≤ count)
    (h31 : count < 2 ^ 31) (hfit : (p : Int) + count < 2 ^ 32) :
    (if u32 ((p : Int) + count) ≤ len then count else i32 ((len : Int) - (p : Int))) =
      min count ((len : Int) - (p : Int)) := by
  obtain ⟨n, rfl⟩ := Int.eq_ofNat_of_zero_le h0
  have h2 : p + n < 2 ^ 32 := by exact_mod_cast hfit
  have hu : u32 ((p : Int) + (n : Int)) = p + n := by
    have := u32_of_nat_lt (p + n) h2
    simpa using this
  rw [hu]
  have hn : n < 2 ^ 31 := by exact_mod_cast h31
  by_cases hle : p + n ≤ len
  · rw [if_pos hle]
    have : (n : Int) ≤ (len : Int) - (p : Int) := by omega
    exact (min_eq_left this).symm
  · rw [if_neg hle]
    have hsub : (len : Int) - (p : Int) = ((len - p : Nat) : Int) := by omega
    rw [hsub, i32_of_nat_lt _ (by omega)]
    have : ((len - p : Nat) : Int) ≤ (n : Int) := by omega
    exact (min_eq_right this).symm

theorem crud_read_state (H : CrudHeader) (E : CrudEnv) (s : CrudState) (fd : Int)
    (buf : Nat → Nat) (count : Int)
    (hinit : s.crudInitialized = true) (hlo : 0 ≤ fd) (hhi : fd ≤ (H.CRUD_MAX_TOTAL_FILES : Int))
    (hopen : (s.crud_file_table fd).is_open = true) :
    ∃ x : Nat,
      (crud_read H E s fd buf count).2.2 =
        { crud_file_table :=
            Function.update s.crud_file_table fd { s.crud_file_table fd with position := x }
          crudInitialized := true
          bus_log := s.bus_log ++ [read_call H E s fd] } := by
  have hrd := crud_read_of_guard H E s fd buf count hinit hlo hhi hopen _ rfl
  by_cases hok : (E.bus s.bus_log (read_request H s fd) (Buffer.bytes E.uninit)).1 % 2 = 0
  · rw [if_pos hok] at hrd
    rw [hrd]
    simp only [hinit, read_call]
    exact ⟨_, rfl⟩
  · rw [if_neg hok] at hrd
    rw [hrd]
    refine ⟨(s.crud_file_table fd).position, ?_⟩
    have he : ({ s.crud_file_table fd with position := (s.crud_file_table fd).position } :
        CrudFileAllocationType) = s.crud_file_table fd := rfl
    rw [he, Function.update_eq_self]
    simp only [hinit, read_call]

theorem crud_write_inner_read (H : CrudHeader) (E : CrudEnv) (s : CrudState) (fd : Int)
    (hinit : s.crudInitialized = true) (hlo : 0 ≤ fd) (hhi : fd ≤ (H.CRUD_MAX_TOTAL_FILES : Int))
    (hopen : (s.crud_file_table fd).is_open = true) :
    ∃ x : Nat,
      (write_inner_read H E s fd).2.2 =
        { crud_file_table :=
            Function.update s.crud_file_table fd { s.crud_file_table fd with position := x }
          crudInitialized := true
          bus_log := s.bus_log ++ [read_call H E s fd] } := by
  obtain ⟨x, hx⟩ := crud_read_state H E (s.setEntry fd { s.crud_file_table fd with position := 0 })
    fd E.uninit
    (i32 ((s.setEntry fd { s.crud_file_table fd with position := 0 }).crud_file_table fd).length)
    hinit hlo hhi (by simp [hopen])
  refine ⟨x, ?_⟩
  unfold write_inner_read
  rw [hx]
  simp [read_call, read_request]


theorem crud_write_of_guard (H : CrudHeader) (E : CrudEnv) (s : CrudState) (fd : Int)
    (buf : Nat → Nat) (count : Int)
    (hinit : s.crudInitialized = true) (hlo : 0 ≤ fd) (hhi : fd ≤ (H.CRUD_MAX_TOTAL_FILES : Int))
    (hopen : (s.crud_file_table fd).is_open = true) (mid : CrudState)
    (hmid : mid = (write_inner_read H E s fd).2.2) :
    crud_write H E s fd buf count =
      if u32 (((s.crud_file_table fd).position : Int) + count) > (mid.crud_file_table fd).length
      then
        if (delete_call H E s fd buf count).response % 2 = 0 then
          if (create_call H E s fd buf count).response % 2 = 1 then
            (-1, { mid with
                   bus_log := mid.bus_log ++ [delete_call H E s fd buf count] ++
                     [create_call H E s fd buf count] })
          else
            (count,
              { mid with
                crud_file_table :=
                  Function.update mid.crud_file_table fd
                    { mid.crud_file_table fd with
                      object_id := ((create_call H E s fd buf count).response / 2 ^ 32) % 2 ^ 32
                      position := u32 (((s.crud_file_table fd).position : Int) + count)
                      length := u32 (((s.crud_file_table fd).position : Int) + count) }
                bus_log := mid.bus_log ++ [delete_call H E s fd buf count] ++
                  [create_call H E s fd buf count] })
        else (-1, { mid with bus_log := mid.bus_log ++ [delete_call H E s fd buf count] })
      else
        if (update_call H E s fd buf count).response % 2 = 1 then
          (-1, { mid with bus_log := mid.bus_log ++ [update_call H E s fd buf count] })
        else
          (count,
            { mid with
              crud_file_table :=
                Function.update mid.crud_file_table fd
                  { mid.crud_file_table fd with
                    object_id := ((update_call H E s fd buf count).response / 2 ^ 32) % 2 ^ 32
                    position := u32 (((s.crud_file_table fd).position : Int) + count) }
              bus_log := mid.bus_log ++ [update_call H E s fd buf count] }) := by
  subst hmid
  have hg : s.crudInitialized = true ∧ 0 ≤ fd ∧ fd ≤ (H.CRUD_MAX_TOTAL_FILES : Int) ∧
      (s.crud_file_table fd).is_open = true := ⟨hinit, hlo, hhi, hopen⟩
  have hr : ∀ r : Nat, (r % 2 = 1 ∧ 0 ≤ fd ∧ fd ≤ (H.CRUD_MAX_TOTAL_FILES : Int)) ↔ r % 2 = 1 :=
    fun r => ⟨fun h => h.1, fun h => ⟨h, hlo, hhi⟩⟩
  unfold crud_write
  simp only [if_pos hg, crud_bus_request, extract_crudresponse, hr]
  by_cases h1 : u32 (((s.crud_file_table fd).position : Int) + count) >
      ((write_inner_read H E s fd).2.2.crud_file_table fd).length
  · rw [if_pos h1]
    have h1' := h1
    unfold write_inner_read at h1'
    rw [if_pos h1']
    by_cases h2 : (delete_call H E s fd buf count).response % 2 = 0
    · rw [if_pos h2]
      have h2' := h2
      unfold delete_call write_merged write_inner_read at h2'
      rw [if_pos h2']
      by_cases h3 : (create_call H E s fd buf count).response % 2 = 1
      · rw [if_pos h3]
        have h3' := h3
        unfold create_call delete_call write_merged write_inner_read at h3'
        simp only [if_pos h3', one_ne_zero, if_false, if_true]
        rfl
      · rw [if_neg h3]
        have h3' := h3
        unfold create_call delete_call write_merged write_inner_read at h3'
        simp only [if_neg h3', if_true, if_false]
        simp only [CrudState.setEntry, Function.update_same, Function.update_idem, create_call,
          delete_call, write_merged, write_inner_read]
    · rw [if_neg h2]
      have h2' := h2
      unfold delete_call write_merged write_inner_read at h2'
      rw [if_neg h2']
      rfl
  · rw [if_neg h1]
    have h1' := h1
    unfold write_inner_read at h1'
    rw [if_neg h1']
    by_cases h3 : (update_call H E s fd buf count).response % 2 = 1
    · rw [if_pos h3]
      have h3' := h3
      unfold update_call write_merged write_inner_read at h3'
      simp only [if_pos h3', one_ne_zero, if_false, if_true]
      rfl
    · rw [if_neg h3]
      have h3' := h3
      unfold update_call write_merged write_inner_read at h3'
      simp only [if_neg h3', if_true, if_false]
      simp only [CrudState.setEntry, Function.update_same, Function.update_idem, update_call,
        write_merged, write_inner_read]

theorem calls_since_append (s t : CrudState) (l : List BusCall)
    (h : t.bus_log = s.bus_log ++ l) : calls_since s t = l := by
  unfold calls_since
  rw [h, List.drop_left]

theorem read_request_rewind (H : CrudHeader) (s : CrudState) (fd : Int) (x : Nat) :
    read_request H (s.setEntry fd { s.crud_file_table fd with position := x }) fd =
      read_request H s fd := by
  simp [read_request]

/-- The example store never fails. -/
theorem demo_bus_never_fails : bus_never_fails demo_env := by
  intro log request buf
  simp only [demo_env, demo_bus]
  split_ifs <;> simp

/-- C2: in an initialized session, for an open handle `h` in range whose entry
is an entry of the data model (position ≤ length, and the length fits the 24
bits of the length field of a request), and a count with `0 ≤ count` (an
`int32_t`), when the READ transaction succeeds `crud_read` returns exactly
`min(count, length - position)`, which is at most `length - position`, and the
table afterwards is the old one with the position of entry `h` advanced by the
returned value: length, object_id, filename and open flag of the entry and all
other entries are unchanged. -/
theorem crud_read_bounded (H : CrudHeader) (E : CrudEnv) (s : CrudState) (h : Int)
    (buf : Nat → Nat) (count : Int)
    (hinit : s.crudInitialized = true) (hlo : 0 ≤ h) (hhi : h < (H.CRUD_MAX_TOTAL_FILES : Int))
    (hopen : (s.crud_file_table h).is_open = true)
    (hpos : (s.crud_file_table h).position ≤ (s.crud_file_table h).length)
    (hlen : (s.crud_file_table h).length < 2 ^ 24)
    (h0 : 0 ≤ count) (h31 : count < 2 ^ 31)
    (hok : (read_call H E s h).response % 2 = 0) :
    (crud_read H E s h buf count).1 =
        min count (((s.crud_file_table h).length : Int) - ((s.crud_file_table h).position : Int)) ∧
      (crud_read H E s h buf count).1 ≤
        ((s.crud_file_table h).length : Int) - ((s.crud_file_table h).position : Int) ∧
      (crud_read H E s h buf count).2.2.crud_file_table =
        Function.update s.crud_file_table h
          { s.crud_file_table h with
            position := (s.crud_file_table h).position + (crud_read H E s h buf count).1.toNat } := by
  have hfit : ((s.crud_file_table h).position : Int) + count < 2 ^ 32 := by
    have h1 : ((s.crud_file_table h).position : Int) ≤ ((s.crud_file_table h).length : Int) := by
      exact_mod_cast hpos
    have h2 : ((s.crud_file_table h).length : Int) < 2 ^ 24 := by exact_mod_cast hlen
    omega
  have hrd := crud_read_of_guard H E s h buf count hinit hlo (le_of_lt hhi) hopen _
    (read_bytes_eq _ _ count hpos h0 h31 hfit).symm
  have hok' : (E.bus s.bus_log (read_request H s h) (Buffer.bytes E.uninit)).1 % 2 = 0 := hok
  rw [if_pos hok'] at hrd
  rw [hrd]
  refine ⟨rfl, min_le_right _ _, ?_⟩
  simp only
  have hm0 : 0 ≤ min count (((s.crud_file_table h).length : Int) - ((s.crud_file_table h).position : Int)) :=
    le_min h0 (by omega)
  rw [u32_add _ _ hm0 (by have := min_le_left count (((s.crud_file_table h).length : Int) - ((s.crud_file_table h).position : Int)); omega)]

/-- Instance of `crud_read_bounded`: 20 bytes asked at position 90 of 100. -/
theorem crud_read_bounded_witness :
    (crud_read demo_header demo_env (demo_state true 90 100) 0 (fun _ => 0) 20).1 = 10 ∧
      ((crud_read demo_header demo_env (demo_state true 90 100) 0 (fun _ => 0) 20).2.2.crud_file_table
        0).position = 100 := by
  have h := crud_read_bounded demo_header demo_env (demo_state true 90 100) 0 (fun _ => 0) 20 rfl
    (by decide) (by decide) rfl (by decide) (by decide) (by decide) (by decide) (by decide)
  have h1 : (crud_read demo_header demo_env (demo_state true 90 100) 0 (fun _ => 0) 20).1 = 10 := by
    rw [h.1]; decide
  refine ⟨h1, ?_⟩
  rw [h.2.2, h1]
  simp [demo_state, demo_table]

/-! ## Write -/

/-- C3: in an initialized session, for an open handle `h` in range whose entry
is an entry of the data model (`oldPos ≤ length`, and the length fits the 24
bits of the length field of a request), and `0 ≤ count` (an `int32_t`) with
`oldPos + count > length`, if the DELETE and the CREATE transactions both
succeed then `crud_write` returns `count`; it made a READ, the DELETE and the
CREATE, in this order; the CREATE request is
`create_crudrequest(0, CRUD_CREATE, oldPos + count, 0)`; and the table
afterwards is the old one with entry `h` holding length = position =
`oldPos + count` and the upper 32 bits of the CREATE response as object_id. -/
theorem crud_write_grow (H : CrudHeader) (E : CrudEnv) (s : CrudState) (h : Int)
    (buf : Nat → Nat) (count : Int)
    (hinit : s.crudInitialized = true) (hlo : 0 ≤ h) (hhi : h < (H.CRUD_MAX_TOTAL_FILES : Int))
    (hopen : (s.crud_file_table h).is_open = true)
    (hpos : (s.crud_file_table h).position ≤ (s.crud_file_table h).length)
    (hlen : (s.crud_file_table h).length < 2 ^ 24)
    (h0 : 0 ≤ count) (h31 : count < 2 ^ 31)
    (hgrow : ((s.crud_file_table h).length : Int) < ((s.crud_file_table h).position : Int) + count)
    (hdel : (delete_call H E s h buf count).response % 2 = 0)
    (hcre : (create_call H E s h buf count).response % 2 = 0) :
    (crud_write H E s h buf count).1 = count ∧
      calls_since s (crud_write H E s h buf count).2 =
        [read_call H E s h, delete_call H E s h buf count, create_call H E s h buf count] ∧
      (create_call H E s h buf count).request =
        create_crudrequest 0 H.CRUD_CREATE
          (((s.crud_file_table h).position : Int) + count).toNat 0 ∧
      (crud_write H E s h buf count).2.crud_file_table =
        Function.update s.crud_file_table h
          { s.crud_file_table h with
            object_id := ((create_call H E s h buf count).response / 2 ^ 32) % 2 ^ 32
            position := (((s.crud_file_table h).position : Int) + count).toNat
            length := (((s.crud_file_table h).position : Int) + count).toNat } := by
  have hfit : ((s.crud_file_table h).position : Int) + count < 2 ^ 32 := by
    have h1 : ((s.crud_file_table h).position : Int) ≤ ((s.crud_file_table h).length : Int) := by
      exact_mod_cast hpos
    have h2 : ((s.crud_file_table h).length : Int) < 2 ^ 24 := by exact_mod_cast hlen
    omega
  obtain ⟨x, hx⟩ := crud_write_inner_read H E s h hinit hlo (le_of_lt hhi) hopen
  have hw := crud_write_of_guard H E s h buf count hinit hlo (le_of_lt hhi) hopen _ hx.symm
  have hu : u32 (((s.crud_file_table h).position : Int) + count) =
      (((s.crud_file_table h).position : Int) + count).toNat := by
    rw [u32_add _ _ h0 hfit]
    omega
  have hg : u32 (((s.crud_file_table h).position : Int) + count) >
      (s.crud_file_table h).length := by
    rw [hu]; omega
  have hne : ¬ (create_call H E s h buf count).response % 2 = 1 := by omega
  simp only [Function.update_same, if_pos hg, if_pos hdel, if_neg hne] at hw
  have hreq : (create_call H E s h buf count).request =
      create_crudrequest 0 H.CRUD_CREATE
        (((s.crud_file_table h).position : Int) + count).toNat 0 := by
    simp only [create_call, hu]
  refine ⟨?_, ?_, hreq, ?_⟩
  · rw [hw]
  · apply calls_since_append
    rw [hw]
    simp
  · rw [hw]
    simp only [Function.update_idem, hu]

/-- Instance of `crud_write_grow`: 20 bytes written at position 90 of 100. -/
theorem crud_write_grow_witness :
    (crud_write demo_header demo_env (demo_state true 90 100) 0 (fun _ => 0xCD) 20).1 = 20 ∧
      ((crud_write demo_header demo_env (demo_state true 90 100) 0 (fun _ => 0xCD)
        20).2.crud_file_table 0).length = 110 ∧
      ((crud_write demo_header demo_env (demo_state true 90 100) 0 (fun _ => 0xCD)
        20).2.crud_file_table 0).position = 110 := by
  have h := crud_write_grow demo_header demo_env (demo_state true 90 100) 0 (fun _ => 0xCD) 20 rfl
    (by decide) (by decide) rfl (by decide) (by decide) (by decide) (by decide) (by decide)
    (by decide) (by decide)
  refine ⟨h.1, ?_, ?_⟩
  · rw [h.2.2.2]; simp [demo_state, demo_table]
  · rw [h.2.2.2]; simp [demo_state, demo_table]

/-- No transaction failed between `s` and `t` when all of them succeeded. -/
theorem any_failed_calls_since (s t : CrudState) (l : List BusCall)
    (h : t.bus_log = s.bus_log ++ l) (hl : ∀ c ∈ l, c.response % 2 = 0) :
    ¬ any_failed (calls_since s t) := by
  rw [calls_since_append s t l h]
  rintro ⟨c, hc, hodd⟩
  have := hl c hc
  omega

/-- A failed transaction of `crud_format` (INIT, FORMAT or CREATE) makes it return -1. -/
theorem crud_format_propagates (H : CrudHeader) (E : CrudEnv) (s : CrudState)
    (hfail : any_failed (calls_since s (crud_format H E s).2)) :
    (crud_format H E s).1 = FAIL16 := by
  by_contra hne
  apply hfail.elim
  revert hne hfail
  simp only [crud_format, crud_init, crud_bus_request]
  split_ifs <;> simp_all [any_failed, calls_since, FAIL16, FAIL8]

/-- A failed transaction of `crud_mount` (INIT or READ) makes it return -1. -/
theorem crud_mount_propagates (H : CrudHeader) (E : CrudEnv) (s : CrudState)
    (hfail : any_failed (calls_since s (crud_mount H E s).2)) :
    (crud_mount H E s).1 = FAIL16 := by
  by_contra hne
  apply hfail.elim
  revert hne hfail
  simp only [crud_mount, crud_init, crud_bus_request]
  split_ifs <;> simp_all [any_failed, calls_since, FAIL16, FAIL8]

/-- A failed transaction of `crud_unmount` (UPDATE or CLOSE) makes it return -1. -/
theorem crud_unmount_propagates (H : CrudHeader) (E : CrudEnv) (s : CrudState)
    (hfail : any_failed (calls_since s (crud_unmount H E s).2)) :
    (crud_unmount H E s).1 = FAIL16 := by
  by_contra hne
  apply hfail.elim
  revert hne hfail
  simp only [crud_unmount, crud_bus_request]
  split_ifs <;> simp_all [any_failed, calls_since, FAIL16, FAIL8]

/-- A failed READ makes `crud_read` return -1. -/
theorem crud_read_propagates (H : CrudHeader) (E : CrudEnv) (s : CrudState) (fd : Int)
    (buf : Nat → Nat) (count : Int)
    (hfail : any_failed (calls_since s (crud_read H E s fd buf count).2.2)) :
    (crud_read H E s fd buf count).1 = -1 := by
  by_contra hne
  apply hfail.elim
  revert hne hfail
  simp only [crud_read, crud_bus_request]
  split_ifs <;> simp_all [any_failed, calls_since]

/-- The free-slot index found by the loop of `crud_open` never exceeds its start value. -/
theorem crud_open_loop_index_le (t : Int → CrudFileAllocationType) (path : String) :
    ∀ (fuel i index : Nat), (crud_open_loop t path fuel i index).2.2 ≤ index := by
  intro fuel
  induction fuel with
  | zero => intro i index; simp [crud_open_loop]
  | succ f ih =>
    intro i index
    unfold crud_open_loop
    split_ifs with h1 h2
    · exact le_rfl
    · exact le_trans (ih (i + 1) i) (le_of_lt h2.1)
    · exact ih (i + 1) index

/-- A failed transaction of `crud_open` (INIT or CREATE) makes it return -1. -/
theorem crud_open_propagates (H : CrudHeader) (E : CrudEnv) (s : CrudState) (path : String)
    (hfail : any_failed (calls_since s (crud_open H E s path).2)) :
    (crud_open H E s path).1 = -1 := by
  have hidx : ∀ t : Int → CrudFileAllocationType,
      ((crud_open_loop t path H.CRUD_MAX_TOTAL_FILES 0 H.CRUD_MAX_TOTAL_FILES).2.2 : Int) ≤
        (H.CRUD_MAX_TOTAL_FILES : Int) := fun t => by
    exact_mod_cast crud_open_loop_index_le t path _ _ _
  by_contra hne
  apply hfail.elim
  revert hne hfail
  simp only [crud_open, crud_init, crud_bus_request, extract_crudresponse]
  split_ifs <;> simp_all [any_failed, calls_since]

/-- A failed transaction of `crud_write` other than its first one, the READ,
makes it return -1. -/
theorem crud_write_propagates (H : CrudHeader) (E : CrudEnv) (s : CrudState) (fd : Int)
    (buf : Nat → Nat) (count : Int)
    (hfail : any_failed (calls_since s (crud_write H E s fd buf count).2).tail) :
    (crud_write H E s fd buf count).1 = -1 := by
  by_cases hg : s.crudInitialized = true ∧ 0 ≤ fd ∧ fd ≤ (H.CRUD_MAX_TOTAL_FILES : Int) ∧
      (s.crud_file_table fd).is_open = true
  · obtain ⟨hinit, hlo, hhi, hopen⟩ := hg
    obtain ⟨x, hx⟩ := crud_write_inner_read H E s fd hinit hlo hhi hopen
    have hw := crud_write_of_guard H E s fd buf count hinit hlo hhi hopen _ hx.symm
    by_contra hne
    apply hfail.elim
    revert hne hfail
    rw [hw]
    split_ifs <;> simp_all [any_failed, calls_since]
  · simp [crud_write, hg]

/-- When a transaction after the READ fails, `crud_write` returns -1 and the
table is the old one except for the position of entry `fd`, which is the one
left by the inner `crud_read`. -/
theorem crud_write_failure_table (H : CrudHeader) (E : CrudEnv) (s : CrudState) (fd : Int)
    (buf : Nat → Nat) (count : Int)
    (hinit : s.crudInitialized = true) (hlo : 0 ≤ fd) (hhi : fd ≤ (H.CRUD_MAX_TOTAL_FILES : Int))
    (hopen : (s.crud_file_table fd).is_open = true)
    (hfail : any_failed (calls_since s (crud_write H E s fd buf count).2).tail) :
    (crud_write H E s fd buf count).1 = -1 ∧
      (crud_write H E s fd buf count).2.crud_file_table =
        Function.update s.crud_file_table fd
          { s.crud_file_table fd with
            position := ((write_inner_read H E s fd).2.2.crud_file_table fd).position } := by
  obtain ⟨x, hx⟩ := crud_write_inner_read H E s fd hinit hlo hhi hopen
  have hw := crud_write_of_guard H E s fd buf count hinit hlo hhi hopen _ hx.symm
  rw [hx]
  revert hfail
  rw [hw]
  split_ifs <;> simp_all [any_failed, calls_since]

/-- C5 (what the code does): `crud_write` on the open file in slot 0 (position
90, length 100) over a store whose READ succeeds and whose UPDATE, DELETE or
CREATE fails returns -1, but the position of the entry is 100 afterwards, not
90: the rewind to 0 and the read of the old content moved the cursor and the
failure paths return without restoring it. -/
theorem crud_write_failure_moves_position :
    ((demo_state true 90 100).crud_file_table 0).position = 90 ∧
      (update_call demo_header (demo_env_failing 4) (demo_state true 90 100) 0 (fun _ => 0xCD)
        5).response % 2 = 1 ∧
      (crud_write demo_header (demo_env_failing 4) (demo_state true 90 100) 0 (fun _ => 0xCD)
        5).1 = -1 ∧
      ((crud_write demo_header (demo_env_failing 4) (demo_state true 90 100) 0 (fun _ => 0xCD)
        5).2.crud_file_table 0).position = 100 ∧
      (delete_call demo_header (demo_env_failing 5) (demo_state true 90 100) 0 (fun _ => 0xCD)
        20).response % 2 = 1 ∧
      (crud_write demo_header (demo_env_failing 5) (demo_state true 90 100) 0 (fun _ => 0xCD)
        20).1 = -1 ∧
      ((crud_write demo_header (demo_env_failing 5) (demo_state true 90 100) 0 (fun _ => 0xCD)
        20).2.crud_file_table 0).position = 100 ∧
      (create_call demo_header (demo_env_failing 2) (demo_state true 90 100) 0 (fun _ => 0xCD)
        20).response % 2 = 1 ∧
      (crud_write demo_header (demo_env_failing 2) (demo_state true 90 100) 0 (fun _ => 0xCD)
        20).1 = -1 ∧
      ((crud_write demo_header (demo_env_failing 2) (demo_state true 90 100) 0 (fun _ => 0xCD)
        20).2.crud_file_table 0).position = 100 := by
  decide

/-- C9 (what the code does): over a store that fails every READ, `crud_write` of
5 bytes into the open file in slot 0 makes a READ that fails and an UPDATE that
succeeds, and returns 5, not -1: the result of the inner `crud_read` is ignored. -/
theorem crud_write_ignores_read_failure :
    (read_call demo_header (demo_env_failing 3) (demo_state true 90 100) 0).response % 2 = 1 ∧
      (calls_since (demo_state true 90 100)
        (crud_write demo_header (demo_env_failing 3) (demo_state true 90 100) 0 (fun _ => 0xCD)
          5).2).map (fun c => (demo_opcode c.request, c.response % 2)) = [(3, 1), (4, 0)] ∧
      (crud_write demo_header (demo_env_failing 3) (demo_state true 90 100) 0 (fun _ => 0xCD)
        5).1 = 5 := by
  decide

/-! ## Round trip -/

/-- C6: in an initialized session, for a handle `h` with `0 ≤ h < CRUD_MAX_TOTAL_FILES`
and any offset, `crud_seek` returns 0 and changes nothing but the position of
entry `h`, which becomes the offset, when the offset is at most the length; it
returns -1 and leaves the whole state as it was when the offset exceeds the
length.  The transaction log is the same in both cases: no bus transaction. -/
theorem crud_seek_in_range (H : CrudHeader) (s : CrudState) (h : Int) (offset : Nat)
    (hinit : s.crudInitialized = true) (hlo : 0 ≤ h) (hhi : h < (H.CRUD_MAX_TOTAL_FILES : Int)) :
    (offset ≤ (s.crud_file_table h).length →
      crud_seek H s h offset =
        (0, { s with
              crud_file_table :=
                Function.update s.crud_file_table h
                  { s.crud_file_table h with position := offset } })) ∧
    ((s.crud_file_table h).length < offset → crud_seek H s h offset = (-1, s)) := by
  have hg : s.crudInitialized = true ∧ 0 ≤ h ∧ h ≤ (H.CRUD_MAX_TOTAL_FILES : Int) :=
    ⟨hinit, hlo, le_of_lt hhi⟩
  constructor
  · intro hle
    simp [crud_seek, hg, hle, CrudState.setEntry]
  · intro hgt
    simp [crud_seek, hg, not_le.mpr hgt]

/-- Instance of `crud_seek_in_range`: seek to 40 and to 101 in a file of 100 bytes. -/
theorem crud_seek_in_range_witness :
    (demo_state true 90 100).crudInitialized = true ∧ (0 : Int) ≤ 0 ∧
      (0 : Int) < (demo_header.CRUD_MAX_TOTAL_FILES : Int) ∧
      (crud_seek demo_header (demo_state true 90 100) 0 40).1 = 0 ∧
      ((crud_seek demo_header (demo_state true 90 100) 0 40).2.crud_file_table 0).position = 40 ∧
      crud_seek demo_header (demo_state true 90 100) 0 101 = (-1, demo_state true 90 100) := by
  have h := crud_seek_in_range demo_header (demo_state true 90 100) 0 40 rfl (by decide) (by decide)
  have h2 := crud_seek_in_range demo_header (demo_state true 90 100) 0 101 rfl (by decide) (by decide)
  refine ⟨rfl, by decide, by decide, ?_, ?_, h2.2 (by decide)⟩
  · rw [h.1 (by decide)]
  · rw [h.1 (by decide)]
    simp

/-! ## Closed and out-of-range handles -/

/-- C7 (what the code does): for a handle `h` with `0 ≤ h < CRUD_MAX_TOTAL_FILES`
whose entry is closed, `crud_read` and `crud_write` test the open flag: they
return -1 for every count and leave the caller's buffer and the whole state
unchanged.  The guard of `crud_seek` lacks that test: on the closed entry, in
an initialized session, `crud_seek` returns 0 and sets the position when the
offset is at most the length (it returns -1 without any change only for a
larger offset or an uninitialized session). -/
theorem closed_handle_seek_not_rejected (H : CrudHeader) (E : CrudEnv) (s : CrudState) (h : Int)
    (buf : Nat → Nat) (count : Int) (offset : Nat)
    (hlo : 0 ≤ h) (hhi : h < (H.CRUD_MAX_TOTAL_FILES : Int))
    (hclosed : (s.crud_file_table h).is_open = false) :
    crud_read H E s h buf count = (-1, buf, s) ∧
    crud_write H E s h buf count = (-1, s) ∧
    crud_seek H s h offset =
      (if s.crudInitialized = true ∧ offset ≤ (s.crud_file_table h).length then
        (0, s.setEntry h { s.crud_file_table h with position := offset })
      else (-1, s)) := by
  refine ⟨?_, ?_, ?_⟩
  · simp [crud_read, hclosed]
  · simp [crud_write, hclosed]
  · by_cases hi : s.crudInitialized = true
    · by_cases hle : offset ≤ (s.crud_file_table h).length
      · simp [crud_seek, hi, hlo, le_of_lt hhi, hle]
      · simp [crud_seek, hi, hlo, le_of_lt hhi, hle]
    · simp [crud_seek, hi]

/-- Instance of `closed_handle_seek_not_rejected`: the file in slot 0 is closed
with position 90 and length 100; `crud_read` and `crud_write` return -1 and
change nothing, `crud_seek(0, 5)` returns 0 and moves the position to 5. -/
theorem closed_handle_seek_not_rejected_witness :
    (0 : Int) ≤ 0 ∧ (0 : Int) < (demo_header.CRUD_MAX_TOTAL_FILES : Int) ∧
      ((demo_state false 90 100).crud_file_table 0).is_open = false ∧
      ((demo_state false 90 100).crud_file_table 0).position = 90 ∧
      crud_read demo_header demo_env (demo_state false 90 100) 0 (fun _ => 0) 10 =
        (-1, fun _ => 0, demo_state false 90 100) ∧
      crud_write demo_header demo_env (demo_state false 90 100) 0 (fun _ => 0xCD) 20 =
        (-1, demo_state false 90 100) ∧
      (crud_seek demo_header (demo_state false 90 100) 0 5).1 = 0 ∧
      ((crud_seek demo_header (demo_state false 90 100) 0 5).2.crud_file_table 0).position
        = 5 := by
  have h := closed_handle_seek_not_rejected demo_header demo_env (demo_state false 90 100) 0
    (fun _ => 0) 10 5 (by decide) (by decide) rfl
  have hw := closed_handle_seek_not_rejected demo_header demo_env (demo_state false 90 100) 0
    (fun _ => 0xCD) 20 5 (by decide) (by decide) rfl
  have hs : crud_seek demo_header (demo_state false 90 100) 0 5 =
      (0, (demo_state false 90 100).setEntry 0
        { (demo_state false 90 100).crud_file_table 0 with position := 5 }) := by
    rw [h.2.2]
    exact if_pos ⟨rfl, by decide⟩
  refine ⟨by decide, by decide, rfl, rfl, h.1, hw.2.1, ?_, ?_⟩
  · rw [hs]
  · rw [hs]
    simp [CrudState.setEntry]

/-- C8 (what the code does): a handle below 0 or above `CRUD_MAX_TOTAL_FILES` is
rejected by `crud_read`, `crud_write`, `crud_seek` and `crud_close` with -1 and
no change of state; the handle `CRUD_MAX_TOTAL_FILES` itself passes the guard
`fd <= CRUD_MAX_TOTAL_FILES`: in an initialized session `crud_seek` to offset 0
returns 0 and writes the position field one entry past the end of the table. -/
theorem handle_guard_off_by_one (H : CrudHeader) (E : CrudEnv) (s : CrudState)
    (buf : Nat → Nat) (count : Int) (offset : Nat) (hinit : s.crudInitialized = true) :
    (∀ h : Int, h < 0 ∨ (H.CRUD_MAX_TOTAL_FILES : Int) < h →
      crud_read H E s h buf count = (-1, buf, s) ∧ crud_write H E s h buf count = (-1, s) ∧
        crud_seek H s h offset = (-1, s) ∧ crud_close H s h = (-1, s)) ∧
    crud_seek H s (H.CRUD_MAX_TOTAL_FILES : Int) 0 =
      (0, s.setEntry (H.CRUD_MAX_TOTAL_FILES : Int)
            { s.crud_file_table (H.CRUD_MAX_TOTAL_FILES : Int) with position := 0 }) := by
  constructor
  · intro h hh
    have hg : ¬ (0 ≤ h ∧ h ≤ (H.CRUD_MAX_TOTAL_FILES : Int)) := by omega
    refine ⟨?_, ?_, ?_, ?_⟩
    · simp only [crud_read]
      rw [if_neg (fun hc => hg ⟨hc.2.1, hc.2.2.1⟩)]
    · simp only [crud_write]
      rw [if_neg (fun hc => hg ⟨hc.2.1, hc.2.2.1⟩)]
    · simp only [crud_seek]
      rw [if_neg (fun hc => hg ⟨hc.2.1, hc.2.2⟩)]
    · simp only [crud_close]
      rw [if_neg (fun hc => hg ⟨hc.1, hc.2.1⟩)]
  · simp [crud_seek, hinit]

/-- Instance of `handle_guard_off_by_one`: with a table of 8 entries, handle 8
is accepted by `crud_seek`, handle 9 is rejected. -/
theorem handle_guard_off_by_one_witness :
    (demo_state true 90 100).crudInitialized = true ∧
      (crud_seek demo_header (demo_state true 90 100) 8 0).1 = 0 ∧
      (crud_seek demo_header (demo_state true 90 100) 9 0).1 = -1 := by
  have h := handle_guard_off_by_one demo_header demo_env (demo_state true 90 100) (fun _ => 0) 0 0 rfl
  refine ⟨rfl, ?_, ?_⟩
  · exact congrArg Prod.fst h.2
  · have h1 := (h.1 9 (Or.inr (by decide))).2.2.1
    rw [h1]

/-! ## Open -/

/-- C10: in an initialized session, when `path` is the filename of entry `i` of
the table and of no entry below `i`, `crud_open` returns `i` and the state
differs from the old one only in the open flag of entry `i`, which is set: the
other fields of the entry, the other entries and the transaction log (no
CREATE, no transaction at all) are as before. -/
theorem crud_open_existing (H : CrudHeader) (E : CrudEnv) (s : CrudState) (path : String)
    (i : Nat) (hinit : s.crudInitialized = true) (hi : i < H.CRUD_MAX_TOTAL_FILES)
    (hmatch : (s.crud_file_table (i : Int)).filename = path)
    (hfirst : ∀ j : Nat, j < i → (s.crud_file_table (j : Int)).filename ≠ path) :
    crud_open H E s path =
      ((i : Int), { s with
                    crud_file_table :=
                      Function.update s.crud_file_table (i : Int)
                        { s.crud_file_table (i : Int) with is_open := true } }) := by
  have hl := crud_open_loop_found s.crud_file_table path H.CRUD_MAX_TOTAL_FILES 0
    H.CRUD_MAX_TOTAL_FILES i (Nat.zero_le _) (by omega) hmatch (fun j _ hj => hfirst j hj)
  simp [crud_open, hinit, hl.1, hl.2, CrudState.setEntry]

/-- Instance of `crud_open_existing`: opening `a.txt`, held closed in slot 0. -/
theorem crud_open_existing_witness :
    (demo_state false 90 100).crudInitialized = true ∧ 0 < demo_header.CRUD_MAX_TOTAL_FILES ∧
      ((demo_state false 90 100).crud_file_table ((0 : Nat) : Int)).filename = "a.txt" ∧
      (crud_open demo_header demo_env (demo_state false 90 100) "a.txt").1 = 0 ∧
      (crud_open demo_header demo_env (demo_state false 90 100) "a.txt").2.bus_log =
        (demo_state false 90 100).bus_log := by
  have h := crud_open_existing demo_header demo_env (demo_state false 90 100) "a.txt" 0 rfl
    (by decide) rfl (fun j hj => absurd hj (Nat.not_lt_zero j))
  refine ⟨rfl, by decide, rfl, ?_, ?_⟩
  · rw [h]; rfl
  · rw [h]

/-! ## Codec -/

/-- The word built by `create_crudrequest` for fields of any size below the
parameter widths: the weighted sum of the fields, reduced to 64 bits. -/
theorem create_crudrequest_sum (oid opcode length flags : Nat)
    (hl : length < 2 ^ 32) (hf : flags < 2 ^ 8) :
    create_crudrequest oid opcode length flags =
      (oid % 2 ^ 32 * 2 ^ 32 + opcode * 2 ^ 28 + length * 2 ^ 4 + flags * 2) % 2 ^ 64 := by
  unfold create_crudrequest
  simp only
  omega

/-- C16: for `oid < 2^32`, `opcode < 2^4`, `length < 2^24` and `flags < 2^3` the
word built by `create_crudrequest` is `oid*2^32 + opcode*2^28 + length*2^4 +
flags*2`; it fits 64 bits, its success bit (bit 0) is 0, and shifting and
masking recovers each field: `word >> 32 = oid`, `(word >> 28) & 0xF = opcode`,
`(word >> 4) & 0xFFFFFF = length`, `(word >> 1) & 0x7 = flags`. -/
theorem create_crudrequest_layout (oid opcode length flags : Nat) (ho : oid < 2 ^ 32)
    (hc : opcode < 2 ^ 4) (hl : length < 2 ^ 24) (hf : flags < 2 ^ 3) :
    create_crudrequest oid opcode length flags =
        oid * 2 ^ 32 + opcode * 2 ^ 28 + length * 2 ^ 4 + flags * 2 ∧
      create_crudrequest oid opcode length flags < 2 ^ 64 ∧
      create_crudrequest oid opcode length flags % 2 = 0 ∧
      create_crudrequest oid opcode length flags >>> 32 = oid ∧
      (create_crudrequest oid opcode length flags >>> 28) &&& 0xF = opcode ∧
      (create_crudrequest oid opcode length flags >>> 4) &&& 0xFFFFFF = length ∧
      (create_crudrequest oid opcode length flags >>> 1) &&& 0x7 = flags := by
  have hw : create_crudrequest oid opcode length flags =
      oid * 2 ^ 32 + opcode * 2 ^ 28 + length * 2 ^ 4 + flags * 2 := by
    rw [create_crudrequest_sum oid opcode length flags (by omega) (by omega)]
    omega
  have m4 : (0xF : Nat) = 2 ^ 4 - 1 := by norm_num
  have m24 : (0xFFFFFF : Nat) = 2 ^ 24 - 1 := by norm_num
  have m3 : (0x7 : Nat) = 2 ^ 3 - 1 := by norm_num
  refine ⟨hw, ?_, ?_, ?_, ?_, ?_, ?_⟩ <;> rw [hw] <;>
    (try simp only [m4, m24, m3, Nat.shiftRight_eq_div_pow, Nat.and_pow_two_sub_one_eq_mod]) <;>
    omega

/-- C18 as stated fails: for length `2^24` (object 7, operation code 3, flags 0)
the word differs from the word built for `length mod 2^24 = 0`, and its
operation-code field holds 4 instead of 3. -/
theorem create_crudrequest_no_truncation_counterexample :
    (2 : Nat) ^ 24 ≤ 16777216 ∧ 16777216 < (2 : Nat) ^ 32 ∧
      create_crudrequest 7 3 16777216 0 ≠ create_crudrequest 7 3 (16777216 % 2 ^ 24) 0 ∧
      (create_crudrequest 7 3 16777216 0 >>> 28) &&& 0xF = 4 := by
  decide

/-- C18 (amended): for every 32-bit length, also at or above `2^24`, and flags
`< 2^3`, `create_crudrequest(oid, opcode, length, flags)` is
`oid*2^32 + opcode*2^28 + length*2^4 + flags*2` modulo `2^64`: the bits of the
length above bit 23 are not discarded, they are added into the operation-code
and object-identifier fields, so the word is the one built for
`length mod 2^24` plus `(length div 2^24) * 2^28`; the low 28 bits (length
field, flags, success bit) are those of the word built for `length mod 2^24`. -/
theorem create_crudrequest_long_length (oid opcode length flags : Nat)
    (hl : length < 2 ^ 32) (hf : flags < 2 ^ 3) :
    create_crudrequest oid opcode length flags =
        (oid * 2 ^ 32 + opcode * 2 ^ 28 + length * 2 ^ 4 + flags * 2) % 2 ^ 64 ∧
      create_crudrequest oid opcode length flags =
        (create_crudrequest oid opcode (length % 2 ^ 24) flags + (length / 2 ^ 24) * 2 ^ 28)
          % 2 ^ 64 ∧
      create_crudrequest oid opcode length flags % 2 ^ 28 =
        create_crudrequest oid opcode (length % 2 ^ 24) flags % 2 ^ 28 := by
  rw [create_crudrequest_sum oid opcode length flags hl (by omega),
    create_crudrequest_sum oid opcode (length % 2 ^ 24) flags (by omega) (by omega)]
  refine ⟨?_, ?_, ?_⟩ <;> omega

/-- Instance of `create_crudrequest_long_length`: length `2^24` adds `2^28` to
the word built for length 0. -/
theorem create_crudrequest_long_length_witness :
    create_crudrequest 7 3 16777216 0 = create_crudrequest 7 3 0 0 + 1 * 2 ^ 28 := by
  have h := (create_crudrequest_long_length 7 3 16777216 0 (by decide) (by decide)).2.1
  rw [h]
  decide

/-- Instance of `create_crudrequest_layout`: object 7, operation code 3, length
100, flags 1. -/
theorem create_crudrequest_layout_witness :
    create_crudrequest 7 3 100 1 = 7 * 2 ^ 32 + 3 * 2 ^ 28 + 100 * 2 ^ 4 + 1 * 2 ∧
      (create_crudrequest 7 3 100 1 >>> 4) &&& 0xFFFFFF = 100 :=
  ⟨(create_crudrequest_layout 7 3 100 1 (by decide) (by decide) (by decide) (by decide)).1,
    (create_crudrequest_layout 7 3 100 1 (by decide) (by decide) (by decide) (by decide)).2.2.2.2.2.1⟩

/-! ## Close -/

/-- C13: for a handle `h` with `0 ≤ h < CRUD_MAX_TOTAL_FILES`: if entry `h` is
open, `crud_close` returns 0 and the state differs from the old one only in
the open flag (cleared) and the position (0) of entry `h`: filename, object_id
and length of the entry, every other entry and the transaction log are
unchanged (the slot is not released, no bus transaction); if entry `h` is not
open, `crud_close` returns -1 and the state is unchanged. -/
theorem crud_close_spec (H : CrudHeader) (s : CrudState) (h : Int)
    (hlo : 0 ≤ h) (hhi : h < (H.CRUD_MAX_TOTAL_FILES : Int)) :
    ((s.crud_file_table h).is_open = true →
      crud_close H s h =
        (0, { s with
              crud_file_table :=
                Function.update s.crud_file_table h
                  { s.crud_file_table h with is_open := false, position := 0 } })) ∧
    ((s.crud_file_table h).is_open = false → crud_close H s h = (-1, s)) := by
  constructor
  · intro ho
    simp [crud_close, hlo, le_of_lt hhi, ho, CrudState.setEntry]
  · intro hc
    simp [crud_close, hc]

/-- Instance of `crud_close_spec`: closing the open, then the closed, file in
slot 0. -/
theorem crud_close_spec_witness :
    (crud_close demo_header (demo_state true 90 100) 0).1 = 0 ∧
      ((crud_close demo_header (demo_state true 90 100) 0).2.crud_file_table 0).is_open = false ∧
      ((crud_close demo_header (demo_state true 90 100) 0).2.crud_file_table 0).position = 0 ∧
      ((crud_close demo_header (demo_state true 90 100) 0).2.crud_file_table 0).length = 100 ∧
      crud_close demo_header (demo_state false 90 100) 0 = (-1, demo_state false 90 100) := by
  have h1 := (crud_close_spec demo_header (demo_state true 90 100) 0 (by decide) (by decide)).1 rfl
  have h2 := (crud_close_spec demo_header (demo_state false 90 100) 0 (by decide) (by decide)).2 rfl
  refine ⟨?_, ?_, ?_, ?_, h2⟩ <;> rw [h1] <;> simp [demo_state, demo_table]

/-! ## Response extraction -/

/-- What the guard of `extract_crudresponse` does: the result is 1 exactly when
the success bit is set and `0 ≤ fh ≤ CRUD_MAX_TOTAL_FILES`; for `fh` below 0 or
above `CRUD_MAX_TOTAL_FILES` the result is 0 and entry `fh` is written,
whatever the success bit; for `fh` in `0 .. CRUD_MAX_TOTAL_FILES` the result is
the success bit and entry `fh` is written only on success. -/
theorem extract_crudresponse_guard (H : CrudHeader) (s : CrudState) (response : Nat) (fh : Int) :
    ((extract_crudresponse H s response fh).1 = 1 ↔
        (response % 2 = 1 ∧ 0 ≤ fh ∧ fh ≤ (H.CRUD_MAX_TOTAL_FILES : Int))) ∧
      ((fh < 0 ∨ (H.CRUD_MAX_TOTAL_FILES : Int) < fh) →
        extract_crudresponse H s response fh =
          (0, s.setEntry fh
                { s.crud_file_table fh with object_id := (response / 2 ^ 32) % 2 ^ 32 })) ∧
      (0 ≤ fh → fh ≤ (H.CRUD_MAX_TOTAL_FILES : Int) →
        extract_crudresponse H s response fh =
          if response % 2 = 1 then (1, s)
          else (0, s.setEntry fh
                { s.crud_file_table fh with object_id := (response / 2 ^ 32) % 2 ^ 32 })) := by
  refine ⟨?_, ?_, ?_⟩
  · unfold extract_crudresponse
    split_ifs with h
    · simp [h]
    · simp [h]
  · intro hout
    have hg : ¬ (response % 2 = 1 ∧ 0 ≤ fh ∧ fh ≤ (H.CRUD_MAX_TOTAL_FILES : Int)) := by omega
    simp only [extract_crudresponse, if_neg hg]
  · intro h1 h2
    unfold extract_crudresponse
    by_cases hb : response % 2 = 1
    · rw [if_pos ⟨hb, h1, h2⟩, if_pos hb]
    · rw [if_neg (fun hc => hb hc.1), if_neg hb]

/-- C19 (what the code does): `extract_crudresponse` with `fh` outside the table
returns 0, not 1, and writes the object identifier 5 of the response into the
entry it was given: for `fh = 8` (the capacity) and `fh = 9` with a successful
response, and for `fh = -1` even with the success bit set. -/
theorem extract_crudresponse_out_of_bounds :
    (extract_crudresponse demo_header (demo_state true 90 100) (5 * 2 ^ 32 + 1) (-1)).1 = 0 ∧
      ((extract_crudresponse demo_header (demo_state true 90 100) (5 * 2 ^ 32 + 1)
        (-1)).2.crud_file_table (-1)).object_id = 5 ∧
      (extract_crudresponse demo_header (demo_state true 90 100) (5 * 2 ^ 32) 9).1 = 0 ∧
      ((extract_crudresponse demo_header (demo_state true 90 100) (5 * 2 ^ 32)
        9).2.crud_file_table 9).object_id = 5 := by
  decide

/-! ## Format -/

/-- The image of a table that was just cleared is all zero. -/
theorem table_image_cleared (H : CrudHeader) (t : Int → CrudFileAllocationType) :
    table_image H (table_store H t (fun _ => zero_entry)) = fun _ => zero_entry := by
  funext i
  simp only [table_image, table_store]
  split_ifs <;> rfl

/-- Unfolding of `crud_format` along its three transactions. -/
theorem crud_format_eq (H : CrudHeader) (E : CrudEnv) (s : CrudState) :
    crud_format H E s =
      if (init_call H E s).response % 2 = 1 then
        (FAIL16, { s with bus_log := s.bus_log ++ [init_call H E s] })
      else if (format_call H E s).response % 2 = 1 then
        (FAIL16,
          { crud_file_table := s.crud_file_table
            crudInitialized := true
            bus_log := s.bus_log ++ [init_call H E s] ++ [format_call H E s] })
      else
        (if (format_create_call H E s).response % 2 = 1 then FAIL16 else 0,
          { crud_file_table := table_store H s.crud_file_table (fun _ => zero_entry)
            crudInitialized := true
            bus_log := s.bus_log ++ [init_call H E s] ++ [format_call H E s] ++
              [format_create_call H E s] }) := by
  simp only [crud_format, crud_init, crud_bus_request, init_call, format_call, format_create_call]
  split_ifs <;> simp_all [FAIL8, FAIL16]

/-- C17: when INIT and FORMAT succeed, every slot of the table is zero after
`crud_format`, and its transactions are INIT, FORMAT and a CREATE whose request
is `create_crudrequest(0, CRUD_CREATE, sizeof(crud_file_table),
CRUD_PRIORITY_OBJECT)` and whose buffer is the zeroed table; `crud_format`
returns 0 exactly when INIT, FORMAT and that CREATE all succeed; when INIT or
FORMAT fails the table is left unchanged. -/
theorem crud_format_spec (H : CrudHeader) (E : CrudEnv) (s : CrudState) :
    ((init_call H E s).response % 2 = 0 → (format_call H E s).response % 2 = 0 →
      (∀ i : Int, 0 ≤ i → i < (H.CRUD_MAX_TOTAL_FILES : Int) →
        (crud_format H E s).2.crud_file_table i = zero_entry) ∧
      calls_since s (crud_format H E s).2 =
        [init_call H E s, format_call H E s, format_create_call H E s] ∧
      (format_create_call H E s).request =
        create_crudrequest 0 H.CRUD_CREATE H.sizeof_crud_file_table H.CRUD_PRIORITY_OBJECT ∧
      (format_create_call H E s).buf = Buffer.table (fun _ => zero_entry)) ∧
    ((crud_format H E s).1 = 0 ↔
      ((init_call H E s).response % 2 = 0 ∧ (format_call H E s).response % 2 = 0 ∧
        (format_create_call H E s).response % 2 = 0)) ∧
    (((init_call H E s).response % 2 = 1 ∨ (format_call H E s).response % 2 = 1) →
      (crud_format H E s).2.crud_file_table = s.crud_file_table) := by
  have hf := crud_format_eq H E s
  refine ⟨?_, ?_, ?_⟩
  · intro h1 h2
    have n1 : ¬ (init_call H E s).response % 2 = 1 := by omega
    have n2 : ¬ (format_call H E s).response % 2 = 1 := by omega
    rw [if_neg n1, if_neg n2] at hf
    refine ⟨?_, ?_, rfl, ?_⟩
    · intro i hi1 hi2
      rw [hf]
      simp [table_store, hi1, hi2]
    · apply calls_since_append
      rw [hf]
      simp
    · simp only [format_create_call, table_image_cleared]
  · rw [hf]
    split_ifs <;> simp [FAIL16] <;> omega
  · intro h
    rw [hf]
    rcases h with h | h
    · rw [if_pos h]
    · split_ifs <;> rfl

/-- Instance of `crud_format_spec`: formatting over the store that never fails,
and over a store that fails FORMAT. -/
theorem crud_format_spec_witness :
    (crud_format demo_header demo_env (demo_state true 90 100)).1 = 0 ∧
      (crud_format demo_header demo_env (demo_state true 90 100)).2.crud_file_table 0 =
        zero_entry ∧
      (crud_format demo_header (demo_env_failing 1) (demo_state true 90 100)).1 = FAIL16 ∧
      (crud_format demo_header (demo_env_failing 1) (demo_state true 90 100)).2.crud_file_table =
        (demo_state true 90 100).crud_file_table := by
  have h := crud_format_spec demo_header demo_env (demo_state true 90 100)
  have hf := crud_format_spec demo_header (demo_env_failing 1) (demo_state true 90 100)
  refine ⟨h.2.1.mpr (by decide), (h.1 (by decide) (by decide)).1 0 (by decide) (by decide),
    by decide, hf.2.2 (Or.inr (by decide))⟩

/-! ## Open of a path that is not in the table -/

/-- The loop of `crud_open` over a range without a match, when the free-slot
index is already below the range: the index is kept. -/
theorem crud_open_loop_keep (t : Int → CrudFileAllocationType) (path : String) :
    ∀ (fuel k index : Nat), index ≤ k →
      (∀ j : Nat, k ≤ j → j < k + fuel → (t (j : Int)).filename ≠ path) →
      crud_open_loop t path fuel k index = (false, k + fuel, index) := by
  intro fuel
  induction fuel with
  | zero => intro k index _ _; simp [crud_open_loop]
  | succ f ih =>
    intro k index hle hno
    have hne : ¬ path = (t (k : Int)).filename := fun h => hno k le_rfl (by omega) h.symm
    have hlt : ¬ (k < index ∧ (t (k : Int)).filename = "") := fun h => by omega
    unfold crud_open_loop
    rw [if_neg hne, if_neg hlt, ih (k + 1) index (by omega) (fun j h1 h2 => hno j (by omega) (by omega))]
    simp only [Prod.mk.injEq, true_and, and_true]
    omega

/-- The loop of `crud_open` over a range without a match and without an empty
filename: the index is kept. -/
theorem crud_open_loop_full (t : Int → CrudFileAllocationType) (path : String) :
    ∀ (fuel k index : Nat),
      (∀ j : Nat, k ≤ j → j < k + fuel → (t (j : Int)).filename ≠ path) →
      (∀ j : Nat, k ≤ j → j < k + fuel → (t (j : Int)).filename ≠ "") →
      crud_open_loop t path fuel k index = (false, k + fuel, index) := by
  intro fuel
  induction fuel with
  | zero => intro k index _ _; simp [crud_open_loop]
  | succ f ih =>
    intro k index hno hfull
    have hne : ¬ path = (t (k : Int)).filename := fun h => hno k le_rfl (by omega) h.symm
    have hlt : ¬ (k < index ∧ (t (k : Int)).filename = "") :=
      fun h => hfull k le_rfl (by omega) h.2
    unfold crud_open_loop
    rw [if_neg hne, if_neg hlt, ih (k + 1) index (fun j h1 h2 => hno j (by omega) (by omega))
      (fun j h1 h2 => hfull j (by omega) (by omega))]
    simp only [Prod.mk.injEq, true_and, and_true]
    omega

/-- The loop of `crud_open` over a range without a match whose lowest empty
filename is at `j`, below the start index: the loop ends with index `j`. -/
theorem crud_open_loop_free (t : Int → CrudFileAllocationType) (path : String) :
    ∀ (fuel k index j : Nat), k ≤ j → j < k + fuel → j < index →
      (t (j : Int)).filename = "" →
      (∀ i : Nat, k ≤ i → i < j → (t (i : Int)).filename ≠ "") →
      (∀ i : Nat, k ≤ i → i < k + fuel → (t (i : Int)).filename ≠ path) →
      crud_open_loop t path fuel k index = (false, k + fuel, j) := by
  intro fuel
  induction fuel with
  | zero => intro k index j h1 h2; omega
  | succ f ih =>
    intro k index j h1 h2 h3 hfree hlow hno
    have hne : ¬ path = (t (k : Int)).filename := fun h => hno k le_rfl (by omega) h.symm
    unfold crud_open_loop
    rw [if_neg hne]
    by_cases hk : k = j
    · subst hk
      rw [if_pos ⟨h3, hfree⟩, crud_open_loop_keep t path f (k + 1) k (by omega)
        (fun i a b => hno i (by omega) (by omega))]
      simp only [Prod.mk.injEq, true_and, and_true]
      omega
    · have hlt : ¬ (k < index ∧ (t (k : Int)).filename = "") :=
        fun h => hlow k le_rfl (by omega) h.2
      rw [if_neg hlt, ih (k + 1) index j (by omega) (by omega) h3 hfree
        (fun i a b => hlow i (by omega) b) (fun i a b => hno i (by omega) (by omega))]
      simp only [Prod.mk.injEq, true_and, and_true]
      omega

/-- Unfolding of `crud_open` in an initialized session when the path is not in
the table and the loop ends with free-slot index `idx`. -/
theorem crud_open_not_found (H : CrudHeader) (E : CrudEnv) (s : CrudState) (path : String)
    (idx : Nat) (hinit : s.crudInitialized = true)
    (hloop : crud_open_loop s.crud_file_table path H.CRUD_MAX_TOTAL_FILES 0
      H.CRUD_MAX_TOTAL_FILES = (false, H.CRUD_MAX_TOTAL_FILES, idx))
    (hidx : idx ≤ H.CRUD_MAX_TOTAL_FILES) :
    crud_open H E s path =
      if (open_create_call H E s).response % 2 = 1 then
        (-1, { s with bus_log := s.bus_log ++ [open_create_call H E s] })
      else
        ((idx : Int),
          { crud_file_table :=
              Function.update s.crud_file_table (idx : Int)
                { filename := path
                  object_id := ((open_create_call H E s).response / 2 ^ 32) % 2 ^ 32
                  position := 0, length := 0, is_open := true }
            crudInitialized := true
            bus_log := s.bus_log ++ [open_create_call H E s] }) := by
  have h0 : (0 : Int) ≤ (idx : Int) := Int.natCast_nonneg idx
  have h1 : (idx : Int) ≤ (H.CRUD_MAX_TOTAL_FILES : Int) := by exact_mod_cast hidx
  simp only [crud_open, hinit, if_true, hloop, crud_bus_request, extract_crudresponse,
    open_create_call]
  split_ifs <;> simp_all [CrudState.setEntry]

/-- C11 (what the code does for a path that fits): in an initialized session,
when `path` is the filename of no entry of the table, `j` is the lowest index
of the table with an empty filename, the CREATE transaction succeeds and the
path with its terminating NUL fits the filename array
(`strlen path < CRUD_MAX_PATH_LENGTH`), `crud_open` returns `j`, entry `j`
becomes `{filename = path, object_id = upper 32 bits of the CREATE response,
position = 0, length = 0, open = true}` and every other entry is unchanged;
the CREATE is the only transaction.  The source copies the path with an
unchecked `strcpy` after the object identifier is stored, so nothing of this
holds for a longer path. -/
theorem crud_open_new (H : CrudHeader) (E : CrudEnv) (s : CrudState) (path : String) (j : Nat)
    (hinit : s.crudInitialized = true)
    (hno : ∀ i : Nat, i < H.CRUD_MAX_TOTAL_FILES → (s.crud_file_table (i : Int)).filename ≠ path)
    (hj : j < H.CRUD_MAX_TOTAL_FILES)
    (hfree : (s.crud_file_table (j : Int)).filename = "")
    (hlow : ∀ i : Nat, i < j → (s.crud_file_table (i : Int)).filename ≠ "")
    (hok : (open_create_call H E s).response % 2 = 0) :
    strlen path < H.CRUD_MAX_PATH_LENGTH →
    crud_open H E s path =
      ((j : Int),
        { crud_file_table :=
            Function.update s.crud_file_table (j : Int)
              { filename := path
                object_id := ((open_create_call H E s).response / 2 ^ 32) % 2 ^ 32
                position := 0, length := 0, is_open := true }
          crudInitialized := true
          bus_log := s.bus_log ++ [open_create_call H E s] }) := by
  intro _
  have hloop := crud_open_loop_free s.crud_file_table path H.CRUD_MAX_TOTAL_FILES 0
    H.CRUD_MAX_TOTAL_FILES j (Nat.zero_le _) (by omega) hj hfree (fun i _ h => hlow i h)
    (fun i _ h => hno i (by omega))
  rw [Nat.zero_add] at hloop
  have hne : ¬ (open_create_call H E s).response % 2 = 1 := by omega
  rw [crud_open_not_found H E s path j hinit hloop (le_of_lt hj), if_neg hne]

/-- Instance of `crud_open_new`: on the freshly formatted and mounted table,
opening `a.txt` (5 bytes, the filename array has 128) returns handle 0 with
length 0. -/
theorem crud_open_new_witness :
    strlen "a.txt" < demo_header.CRUD_MAX_PATH_LENGTH ∧
      (crud_open demo_header demo_env demo_fresh_state "a.txt").1 = 0 ∧
      ((crud_open demo_header demo_env demo_fresh_state "a.txt").2.crud_file_table 0).length = 0 ∧
      ((crud_open demo_header demo_env demo_fresh_state "a.txt").2.crud_file_table 0).filename
        = "a.txt" := by
  have h := crud_open_new demo_header demo_env demo_fresh_state "a.txt" 0 (by decide)
    (by decide) (by decide) (by decide) (fun i hi => absurd hi (Nat.not_lt_zero i)) (by decide)
    (by decide)
  refine ⟨by decide, ?_, ?_, ?_⟩ <;> rw [h] <;> simp

/-- Result of `crud_open` in an initialized session when the path is not in the
table and no filename of the table is empty. -/
theorem crud_open_full_table (H : CrudHeader) (E : CrudEnv) (s : CrudState) (path : String)
    (hinit : s.crudInitialized = true)
    (hno : ∀ i : Nat, i < H.CRUD_MAX_TOTAL_FILES → (s.crud_file_table (i : Int)).filename ≠ path)
    (hfull : ∀ i : Nat, i < H.CRUD_MAX_TOTAL_FILES → (s.crud_file_table (i : Int)).filename ≠ "") :
    crud_open H E s path =
      if (open_create_call H E s).response % 2 = 1 then
        (-1, { s with bus_log := s.bus_log ++ [open_create_call H E s] })
      else
        ((H.CRUD_MAX_TOTAL_FILES : Int),
          { crud_file_table :=
              Function.update s.crud_file_table (H.CRUD_MAX_TOTAL_FILES : Int)
                { filename := path
                  object_id := ((open_create_call H E s).response / 2 ^ 32) % 2 ^ 32
                  position := 0, length := 0, is_open := true }
            crudInitialized := true
            bus_log := s.bus_log ++ [open_create_call H E s] }) := by
  have hloop := crud_open_loop_full s.crud_file_table path H.CRUD_MAX_TOTAL_FILES 0
    H.CRUD_MAX_TOTAL_FILES (fun i _ h => hno i (by omega)) (fun i _ h => hfull i (by omega))
  rw [Nat.zero_add] at hloop
  exact crud_open_not_found H E s path _ hinit hloop le_rfl

/-- C12 (what the code does): on a table whose eight slots all hold a file, none
named `new.txt`, `crud_open` of `new.txt` over a store whose CREATE succeeds
returns 8 (the capacity), not -1, and writes the new entry one slot past the
table; it returns -1 only when the CREATE fails. -/
theorem crud_open_full_table_returns_capacity :
    (∀ i : Nat, i < demo_header.CRUD_MAX_TOTAL_FILES →
        (demo_full_state.crud_file_table (i : Int)).filename ≠ "" ∧
        (demo_full_state.crud_file_table (i : Int)).filename ≠ "new.txt") ∧
      (open_create_call demo_header demo_env demo_full_state).response % 2 = 0 ∧
      (crud_open demo_header demo_env demo_full_state "new.txt").1 = 8 ∧
      ((crud_open demo_header demo_env demo_full_state "new.txt").2.crud_file_table 8).filename
        = "new.txt" ∧
      (crud_open demo_header (demo_env_failing 2) demo_full_state "new.txt").1 = -1 := by
  decide

/-! ## Unmount and mount -/

/-- Unfolding of `crud_unmount` in an initialized session. -/
theorem crud_unmount_eq (H : CrudHeader) (E : CrudEnv) (s : CrudState)
    (hinit : s.crudInitialized = true) :
    crud_unmount H E s =
      if (unmount_update_call H E s).response % 2 = 1 then
        (FAIL16, { s with bus_log := s.bus_log ++ [unmount_update_call H E s] })
      else
        (if (unmount_close_call H E s).response % 2 = 1 then FAIL16 else 0,
          { s with
            bus_log := s.bus_log ++ [unmount_update_call H E s] ++ [unmount_close_call H E s] }) := by
  simp only [crud_unmount, hinit, if_true, crud_bus_request, unmount_update_call,
    unmount_close_call]
  split_ifs <;> rfl

/-- Unfolding of `crud_mount` in an initialized session. -/
theorem crud_mount_eq (H : CrudHeader) (E : CrudEnv) (s : CrudState)
    (hinit : s.crudInitialized = true) :
    crud_mount H E s =
      (if (E.bus s.bus_log
            (create_crudrequest 0 H.CRUD_READ H.sizeof_crud_file_table H.CRUD_PRIORITY_OBJECT)
            (Buffer.table (table_image H s.crud_file_table))).1 % 2 = 1 then FAIL16 else 0,
        { crud_file_table := table_store H s.crud_file_table (table_read H E s)
          crudInitialized := true
          bus_log := s.bus_log ++
            [{ request :=
                 create_crudrequest 0 H.CRUD_READ H.sizeof_crud_file_table
                   H.CRUD_PRIORITY_OBJECT
               buf := Buffer.table (table_image H s.crud_file_table)
               response :=
                 (E.bus s.bus_log
                   (create_crudrequest 0 H.CRUD_READ H.sizeof_crud_file_table
                     H.CRUD_PRIORITY_OBJECT)
                   (Buffer.table (table_image H s.crud_file_table))).1 }] }) := by
  simp only [crud_mount, hinit, if_true, crud_bus_request, table_read]
  split_ifs <;> simp_all

/-- Storing an image that agrees with the table on every slot changes nothing. -/
theorem table_store_of_agree (H : CrudHeader) (t img : Int → CrudFileAllocationType)
    (h : ∀ i : Int, 0 ≤ i → i < (H.CRUD_MAX_TOTAL_FILES : Int) → img i = t i) :
    table_store H t img = t := by
  funext i
  simp only [table_store]
  split_ifs with hi
  · exact h i hi.1 hi.2
  · rfl

/-- The table last written after one more transaction. -/
theorem last_table_written_append (H : CrudHeader) (l : List BusCall) (c : BusCall) :
    last_table_written H (l ++ [c]) =
      match table_written H c with
      | some t => some t
      | none => last_table_written H l := by
  induction l with
  | nil =>
    show (match (none : Option (Int → CrudFileAllocationType)) with
      | some t => some t
      | none => table_written H c) = _
    cases table_written H c <;> rfl
  | cons a l ih =>
    have e : last_table_written H (a :: l ++ [c]) =
        match last_table_written H (l ++ [c]) with
        | some t => some t
        | none => table_written H a := rfl
    rw [e, ih]
    cases table_written H c <;> rfl

/-- In an initialized session whose store history ends with a table written to
the priority object and whose READ returns that table, `crud_mount` puts the
table into the array, whatever the array held, and touches nothing else. -/
theorem crud_mount_loads (H : CrudHeader) (E : CrudEnv) (u : CrudState)
    (img : Int → CrudFileAllocationType) (hinit : u.crudInitialized = true)
    (hlast : last_table_written H u.bus_log = some img)
    (hstore : priority_reads_back H E u.bus_log) :
    (crud_mount H E u).2.crud_file_table = table_store H u.crud_file_table img ∧
      calls_since u (crud_mount H E u).2 = [mount_read_call H E u] := by
  obtain ⟨t, ht, hagree⟩ := hstore (Buffer.table (table_image H u.crud_file_table)) img hlast
  rw [crud_mount_eq H E u hinit]
  refine ⟨?_, ?_⟩
  · funext i
    simp only [table_store, table_read]
    split_ifs with hi
    · have h2 : (E.bus u.bus_log
          (create_crudrequest 0 H.CRUD_READ H.sizeof_crud_file_table H.CRUD_PRIORITY_OBJECT)
          (Buffer.table (table_image H u.crud_file_table))).2 = Buffer.table t := ht
      rw [h2]
      exact hagree i hi.1 hi.2
    · rfl
  · simp [calls_since, mount_read_call, priority_read_request]

/-- C14: in an initialized session with any file table `T`, over a store that
never fails and whose READ of the priority object, after the transactions of
the unmount, returns the table last written to it: `crud_unmount` returns 0,
leaves the in-memory table as it was, and makes exactly two transactions, an
UPDATE of the priority object that carries `T` and a CLOSE, so that `T` is the
table last written; every `crud_mount` after these transactions returns 0,
makes one READ of the priority object and leaves `T` in the slots of the
array, whatever the array held before (in particular a zeroed array); and the
`crud_mount` that follows the `crud_unmount` returns 0 with the in-memory
table equal to `T`. -/
theorem unmount_mount_restores_table (H : CrudHeader) (E : CrudEnv) (s : CrudState)
    (hinit : s.crudInitialized = true) (hbus : bus_never_fails E)
    (hstore : priority_reads_back H E (crud_unmount H E s).2.bus_log) :
    (crud_unmount H E s).1 = 0 ∧
      (crud_unmount H E s).2.crud_file_table = s.crud_file_table ∧
      calls_since s (crud_unmount H E s).2 =
        [{ request :=
             create_crudrequest 0 H.CRUD_UPDATE H.sizeof_crud_file_table H.CRUD_PRIORITY_OBJECT
           buf := Buffer.table (table_image H s.crud_file_table)
           response := (unmount_update_call H E s).response },
         { request := create_crudrequest 0 H.CRUD_CLOSE 0 H.CRUD_NULL_FLAG
           buf := Buffer.null
           response := (unmount_close_call H E s).response }] ∧
      last_table_written H (crud_unmount H E s).2.bus_log =
        some (table_image H s.crud_file_table) ∧
      (∀ u : CrudState, u.crudInitialized = true →
        u.bus_log = (crud_unmount H E s).2.bus_log →
          (crud_mount H E u).1 = 0 ∧
          calls_since u (crud_mount H E u).2 = [mount_read_call H E u] ∧
          (∀ i : Int, 0 ≤ i → i < (H.CRUD_MAX_TOTAL_FILES : Int) →
            (crud_mount H E u).2.crud_file_table i = s.crud_file_table i) ∧
          (∀ i : Int, ¬ (0 ≤ i ∧ i < (H.CRUD_MAX_TOTAL_FILES : Int)) →
            (crud_mount H E u).2.crud_file_table i = u.crud_file_table i)) ∧
      (crud_mount H E (crud_unmount H E s).2).1 = 0 ∧
      (crud_mount H E (crud_unmount H E s).2).2.crud_file_table = s.crud_file_table := by
  have hu := crud_unmount_eq H E s hinit
  have n1 : ¬ (unmount_update_call H E s).response % 2 = 1 := by
    have := hbus s.bus_log (unmount_update_call H E s).request (unmount_update_call H E s).buf
    simp only [unmount_update_call] at this ⊢
    omega
  have n2 : ¬ (unmount_close_call H E s).response % 2 = 1 := by
    have := hbus (s.bus_log ++ [unmount_update_call H E s]) (unmount_close_call H E s).request
      (unmount_close_call H E s).buf
    simp only [unmount_close_call] at this ⊢
    omega
  rw [if_neg n1, if_neg n2] at hu
  have ht : (crud_unmount H E s).2.crud_file_table = s.crud_file_table := by rw [hu]
  have hi2 : (crud_unmount H E s).2.crudInitialized = true := by rw [hu]; exact hinit
  have hlog : (crud_unmount H E s).2.bus_log =
      s.bus_log ++ [unmount_update_call H E s] ++ [unmount_close_call H E s] := by rw [hu]
  have hlast : last_table_written H (crud_unmount H E s).2.bus_log =
      some (table_image H s.crud_file_table) := by
    have e1 : table_written H (unmount_close_call H E s) = none := by
      simp only [table_written, unmount_close_call]
      split_ifs <;> rfl
    have e2 : table_written H (unmount_update_call H E s) =
        some (table_image H s.crud_file_table) := by
      have : (unmount_update_call H E s).response % 2 = 0 := by omega
      simp only [table_written, this, and_true]
      simp only [unmount_update_call, or_true, if_true]
    rw [hlog, last_table_written_append, e1]
    simp only
    rw [last_table_written_append, e2]
  have hall : ∀ u : CrudState, u.crudInitialized = true →
      u.bus_log = (crud_unmount H E s).2.bus_log →
        (crud_mount H E u).1 = 0 ∧
        calls_since u (crud_mount H E u).2 = [mount_read_call H E u] ∧
        (∀ i : Int, 0 ≤ i → i < (H.CRUD_MAX_TOTAL_FILES : Int) →
          (crud_mount H E u).2.crud_file_table i = s.crud_file_table i) ∧
        (∀ i : Int, ¬ (0 ≤ i ∧ i < (H.CRUD_MAX_TOTAL_FILES : Int)) →
          (crud_mount H E u).2.crud_file_table i = u.crud_file_table i) := by
    intro u hiu hlu
    have hl := crud_mount_loads H E u (table_image H s.crud_file_table) hiu
      (by rw [hlu]; exact hlast) (by rw [hlu]; exact hstore)
    refine ⟨?_, hl.2, ?_, ?_⟩
    · rw [crud_mount_eq H E u hiu]
      have := hbus u.bus_log
        (create_crudrequest 0 H.CRUD_READ H.sizeof_crud_file_table H.CRUD_PRIORITY_OBJECT)
        (Buffer.table (table_image H u.crud_file_table))
      simp only
      rw [if_neg (by omega)]
    · intro i h1 h2
      rw [hl.1]
      simp only [table_store, table_image, h1, h2, and_self, if_true]
    · intro i hi
      rw [hl.1]
      simp only [table_store, if_neg hi]
  refine ⟨by rw [hu], ht, ?_, hlast, hall, (hall _ hi2 rfl).1, ?_⟩
  · simp only [calls_since, hlog, List.append_assoc, List.drop_left]
    rfl
  · funext i
    by_cases hi : 0 ≤ i ∧ i < (H.CRUD_MAX_TOTAL_FILES : Int)
    · exact (hall _ hi2 rfl).2.2.1 i hi.1 hi.2
    · rw [(hall _ hi2 rfl).2.2.2 i hi, ht]

/-- After the example unmount, the example store returns for a READ of the
priority object the table that the unmount wrote, whatever the READ buffer
held. -/
theorem demo_priority_reads_back :
    priority_reads_back demo_header demo_env
      (crud_unmount demo_header demo_env (demo_state true 90 100)).2.bus_log := by
  intro buf img h
  have h2 : last_table_written demo_header
      (crud_unmount demo_header demo_env (demo_state true 90 100)).2.bus_log =
      some (table_image demo_header (demo_state true 90 100).crud_file_table) := rfl
  rw [h2] at h
  cases h
  exact ⟨_, rfl, fun _ _ _ => rfl⟩

/-- Instance of `unmount_mount_restores_table`: the table with `a.txt` in slot
0 is unmounted; a mount from a zeroed array brings the entry back, and so does
the mount that follows the unmount. -/
theorem unmount_mount_restores_table_witness :
    (crud_unmount demo_header demo_env (demo_state true 90 100)).1 = 0 ∧
      (crud_mount demo_header demo_env
        (with_zeroed_table (crud_unmount demo_header demo_env (demo_state true 90 100)).2)).1
        = 0 ∧
      (crud_mount demo_header demo_env
        (with_zeroed_table
          (crud_unmount demo_header demo_env (demo_state true 90 100)).2)).2.crud_file_table 0 =
        { filename := "a.txt", object_id := 1, position := 90, length := 100, is_open := true } ∧
      (crud_mount demo_header demo_env
        (crud_unmount demo_header demo_env (demo_state true 90 100)).2).1 = 0 ∧
      (crud_mount demo_header demo_env
        (crud_unmount demo_header demo_env (demo_state true 90 100)).2).2.crud_file_table =
        (demo_state true 90 100).crud_file_table := by
  have h := unmount_mount_restores_table demo_header demo_env (demo_state true 90 100) rfl
    demo_bus_never_fails demo_priority_reads_back
  have hz := h.2.2.2.2.1
    (with_zeroed_table (crud_unmount demo_header demo_env (demo_state true 90 100)).2) rfl rfl
  exact ⟨h.1, hz.1, hz.2.2.1 0 (by decide) (by decide), h.2.2.2.2.2.1, h.2.2.2.2.2.2⟩

/-! ## Effect of the operations on single entries -/

theorem crud_seek_length (H : CrudHeader) (s : CrudState) (fd : Int) (loc : Nat) (i : Int) :
    ((crud_seek H s fd loc).2.crud_file_table i).length = (s.crud_file_table i).length := by
  unfold crud_seek
  split_ifs
  · simp only [setEntry_crud_file_table, Function.update_apply]
    split_ifs with h
    · rw [h]
    · rfl
  · rfl
  · rfl

theorem crud_close_length (H : CrudHeader) (s : CrudState) (fd : Int) (i : Int) :
    ((crud_close H s fd).2.crud_file_table i).length = (s.crud_file_table i).length := by
  unfold crud_close
  split_ifs
  · simp only [setEntry_crud_file_table, Function.update_apply]
    split_ifs with h
    · rw [h]
    · rfl
  · rfl

theorem crud_read_length (H : CrudHeader) (E : CrudEnv) (s : CrudState) (fd : Int)
    (buf : Nat → Nat) (count : Int) (i : Int) :
    ((crud_read H E s fd buf count).2.2.crud_file_table i).length =
      (s.crud_file_table i).length := by
  simp only [crud_read, crud_bus_request]
  split_ifs <;> simp only [setEntry_crud_file_table, Function.update_apply] <;> split_ifs <;>
    simp_all

/-- What the loop of `crud_open` returns: a match is an entry of the range with
the filename `path`, no match means no entry of the range has that filename,
and the index is the start index or an entry of the range with empty filename. -/
theorem crud_open_loop_spec (t : Int → CrudFileAllocationType) (path : String) :
    ∀ (fuel k index : Nat),
      ((crud_open_loop t path fuel k index).1 = true →
        k ≤ (crud_open_loop t path fuel k index).2.1 ∧
        (crud_open_loop t path fuel k index).2.1 < k + fuel ∧
        (t ((crud_open_loop t path fuel k index).2.1 : Int)).filename = path) ∧
      ((crud_open_loop t path fuel k index).1 = false →
        ∀ j : Nat, k ≤ j → j < k + fuel → (t (j : Int)).filename ≠ path) ∧
      ((crud_open_loop t path fuel k index).2.2 = index ∨
        (k ≤ (crud_open_loop t path fuel k index).2.2 ∧
          (crud_open_loop t path fuel k index).2.2 < k + fuel ∧
          (t ((crud_open_loop t path fuel k index).2.2 : Int)).filename = "")) := by
  intro fuel
  induction fuel with
  | zero =>
    intro k index
    unfold crud_open_loop
    exact ⟨fun h => by simp at h, fun _ j h1 h2 => by omega, Or.inl rfl⟩
  | succ f ih =>
    intro k index
    unfold crud_open_loop
    by_cases hm : path = (t (k : Int)).filename
    · rw [if_pos hm]
      exact ⟨fun _ => ⟨le_rfl, by show k < k + (f + 1); omega, hm.symm⟩, fun h => by simp at h,
        Or.inl rfl⟩
    · rw [if_neg hm]
      by_cases he : k < index ∧ (t (k : Int)).filename = ""
      · rw [if_pos he]
        obtain ⟨h1, h2, h3⟩ := ih (k + 1) k
        refine ⟨fun h => ?_, fun h j hj1 hj2 => ?_, ?_⟩
        · obtain ⟨a, b, c⟩ := h1 h
          exact ⟨by omega, by omega, c⟩
        · by_cases hjk : j = k
          · subst hjk; exact fun hc => hm hc.symm
          · exact h2 h j (by omega) (by omega)
        · rcases h3 with h3 | ⟨a, b, c⟩
          · right
            rw [h3]
            exact ⟨le_rfl, by omega, he.2⟩
          · right
            exact ⟨by omega, by omega, c⟩
      · rw [if_neg he]
        obtain ⟨h1, h2, h3⟩ := ih (k + 1) index
        refine ⟨fun h => ?_, fun h j hj1 hj2 => ?_, ?_⟩
        · obtain ⟨a, b, c⟩ := h1 h
          exact ⟨by omega, by omega, c⟩
        · by_cases hjk : j = k
          · subst hjk; exact fun hc => hm hc.symm
          · exact h2 h j (by omega) (by omega)
        · rcases h3 with h3 | ⟨a, b, c⟩
          · exact Or.inl h3
          · right
            exact ⟨by omega, by omega, c⟩

/-- The table after `crud_open`: unchanged, or the open flag of an entry named
`path` is set, or (the path being in no entry of the table) a new entry is
written at the free-slot index, which is `CRUD_MAX_TOTAL_FILES` or an entry of
the table with empty filename. -/
theorem crud_open_table (H : CrudHeader) (E : CrudEnv) (s : CrudState) (path : String) :
    (crud_open H E s path).2.crud_file_table = s.crud_file_table ∨
      (∃ i : Nat, i < H.CRUD_MAX_TOTAL_FILES ∧ (s.crud_file_table (i : Int)).filename = path ∧
        (crud_open H E s path).2.crud_file_table =
          Function.update s.crud_file_table (i : Int)
            { s.crud_file_table (i : Int) with is_open := true }) ∨
      (∃ (idx oid : Nat),
        (idx = H.CRUD_MAX_TOTAL_FILES ∨
          (idx < H.CRUD_MAX_TOTAL_FILES ∧ (s.crud_file_table (idx : Int)).filename = "")) ∧
        (∀ j : Nat, j < H.CRUD_MAX_TOTAL_FILES → (s.crud_file_table (j : Int)).filename ≠ path) ∧
        (crud_open H E s path).2.crud_file_table =
          Function.update s.crud_file_table (idx : Int)
            { filename := path, object_id := oid, position := 0, length := 0,
              is_open := true }) := by
  have key : ∀ t : CrudState, t.crud_file_table = s.crud_file_table →
      t.crudInitialized = true →
      (crud_open H E t path).2.crud_file_table = s.crud_file_table ∨
      (∃ i : Nat, i < H.CRUD_MAX_TOTAL_FILES ∧ (s.crud_file_table (i : Int)).filename = path ∧
        (crud_open H E t path).2.crud_file_table =
          Function.update s.crud_file_table (i : Int)
            { s.crud_file_table (i : Int) with is_open := true }) ∨
      (∃ (idx oid : Nat),
        (idx = H.CRUD_MAX_TOTAL_FILES ∨
          (idx < H.CRUD_MAX_TOTAL_FILES ∧ (s.crud_file_table (idx : Int)).filename = "")) ∧
        (∀ j : Nat, j < H.CRUD_MAX_TOTAL_FILES → (s.crud_file_table (j : Int)).filename ≠ path) ∧
        (crud_open H E t path).2.crud_file_table =
          Function.update s.crud_file_table (idx : Int)
            { filename := path, object_id := oid, position := 0, length := 0,
              is_open := true }) := by
    intro t ht hti
    obtain ⟨h1, h2, h3⟩ := crud_open_loop_spec s.crud_file_table path H.CRUD_MAX_TOTAL_FILES 0
      H.CRUD_MAX_TOTAL_FILES
    simp only [Nat.zero_add] at h1 h2 h3
    simp only [crud_open, hti, if_true, ht, crud_bus_request, extract_crudresponse,
      CrudState.setEntry]
    by_cases hf : (crud_open_loop s.crud_file_table path H.CRUD_MAX_TOTAL_FILES 0
        H.CRUD_MAX_TOTAL_FILES).1 = true
    · rw [if_pos hf]
      right; left
      obtain ⟨-, b, c⟩ := h1 hf
      exact ⟨_, b, c, by simp only [ht]⟩
    · rw [if_neg hf]
      have hno := h2 (by simpa using hf)
      split_ifs with hx hy hy
      · simp at hy
      · left; simp only [ht]
      · right; right
        refine ⟨(crud_open_loop s.crud_file_table path H.CRUD_MAX_TOTAL_FILES 0
            H.CRUD_MAX_TOTAL_FILES).2.2,
          ((E.bus t.bus_log (create_crudrequest 0 H.CRUD_CREATE 0 0) Buffer.null).1 / 2 ^ 32)
            % 2 ^ 32, ?_, fun j hj => hno j (Nat.zero_le _) hj, ?_⟩
        · rcases h3 with h3 | ⟨-, b, c⟩
          · exact Or.inl h3
          · exact Or.inr ⟨b, c⟩
        · simp only [ht, Function.update_idem, Function.update_same]
      · simp at hy
  by_cases hi : s.crudInitialized = true
  · exact key s rfl hi
  · by_cases hi2 : (crud_init H E s).2.crudInitialized = true
    · have := key (crud_init H E s).2 (by
        simp only [crud_init, crud_bus_request]; split_ifs <;> rfl) hi2
      have he : crud_open H E s path = crud_open H E (crud_init H E s).2 path := by
        unfold crud_open
        simp only [if_neg hi, if_pos hi2]
      rw [he]
      exact this
    · left
      unfold crud_open
      simp only [if_neg hi, if_neg hi2]
      simp only [crud_init, crud_bus_request]; split_ifs <;> rfl

/-- The `crud_read` call leaves every entry other than `fd` as it was. -/
theorem crud_read_other (H : CrudHeader) (E : CrudEnv) (s : CrudState) (fd : Int)
    (buf : Nat → Nat) (count : Int) (i : Int) (hi : i ≠ fd) :
    (crud_read H E s fd buf count).2.2.crud_file_table i = s.crud_file_table i := by
  simp only [crud_read, crud_bus_request]
  split_ifs <;> simp [Function.update_apply, hi]

/-- The `crud_write` call leaves every entry other than `fd` as it was. -/
theorem crud_write_other (H : CrudHeader) (E : CrudEnv) (s : CrudState) (fd : Int)
    (buf : Nat → Nat) (count : Int) (i : Int) (hi : i ≠ fd) :
    (crud_write H E s fd buf count).2.crud_file_table i = s.crud_file_table i := by
  by_cases hg : s.crudInitialized = true ∧ 0 ≤ fd ∧ fd ≤ (H.CRUD_MAX_TOTAL_FILES : Int) ∧
      (s.crud_file_table fd).is_open = true
  · obtain ⟨hinit, hlo, hhi, hopen⟩ := hg
    obtain ⟨x, hx⟩ := crud_write_inner_read H E s fd hinit hlo hhi hopen
    have hw := crud_write_of_guard H E s fd buf count hinit hlo hhi hopen _ hx.symm
    rw [hw]
    simp only [Function.update_same, Function.update_idem]
    split_ifs <;> simp [Function.update_apply, hi]
  · simp [crud_write, hg]

theorem crud_write_length (H : CrudHeader) (E : CrudEnv) (s : CrudState) (fd : Int)
    (buf : Nat → Nat) (count : Int) (i : Int) :
    (s.crud_file_table i).length ≤
      ((crud_write H E s fd buf count).2.crud_file_table i).length := by
  by_cases hi : i = fd
  · subst hi
    by_cases hg : s.crudInitialized = true ∧ 0 ≤ i ∧ i ≤ (H.CRUD_MAX_TOTAL_FILES : Int) ∧
        (s.crud_file_table i).is_open = true
    · obtain ⟨hinit, hlo, hhi, hopen⟩ := hg
      obtain ⟨x, hx⟩ := crud_write_inner_read H E s i hinit hlo hhi hopen
      have hw := crud_write_of_guard H E s i buf count hinit hlo hhi hopen _ hx.symm
      rw [hw]
      simp only [Function.update_same, Function.update_idem]
      split_ifs with a b c d <;> simp only [Function.update_same] <;> omega
    · simp only [crud_write, if_neg hg]
      exact le_rfl
  · rw [crud_write_other H E s fd buf count i hi]

theorem u32_i32 (x : Int) : u32 (i32 x) = u32 x := by
  unfold u32 i32
  split_ifs <;> congr 1 <;> omega

theorem u32_nat_le (n : Nat) : u32 (n : Int) ≤ n := by
  unfold u32
  omega

/-- The position that the read inside `crud_write` leaves is at most the length. -/
theorem write_inner_read_position_le (H : CrudHeader) (E : CrudEnv) (s : CrudState) (fd : Int)
    (hinit : s.crudInitialized = true) (hlo : 0 ≤ fd) (hhi : fd ≤ (H.CRUD_MAX_TOTAL_FILES : Int))
    (hopen : (s.crud_file_table fd).is_open = true) :
    ((write_inner_read H E s fd).2.2.crud_file_table fd).position ≤
      (s.crud_file_table fd).length := by
  have hrd := crud_read_of_guard H E (s.setEntry fd { s.crud_file_table fd with position := 0 }) fd
    E.uninit
    (i32 ((s.setEntry fd { s.crud_file_table fd with position := 0 }).crud_file_table fd).length)
    hinit hlo hhi (by simp [hopen]) (i32 ((s.crud_file_table fd).length : Int)) (by
      simp only [setEntry_crud_file_table, Function.update_same]
      split_ifs
      · rfl
      · simp)
  unfold write_inner_read
  rw [hrd]
  split_ifs
  · simp only [setEntry_crud_file_table, Function.update_same, Nat.cast_zero, zero_add, u32_i32]
    exact u32_nat_le _
  · simp

theorem crud_seek_cursor (H : CrudHeader) (s : CrudState) (fd : Int) (loc : Nat) (i : Int)
    (h : (s.crud_file_table i).position ≤ (s.crud_file_table i).length) :
    ((crud_seek H s fd loc).2.crud_file_table i).position ≤
      ((crud_seek H s fd loc).2.crud_file_table i).length := by
  unfold crud_seek
  split_ifs with h1 h2
  · simp only [setEntry_crud_file_table, Function.update_apply]
    split_ifs with h3
    · subst h3; exact h2
    · exact h
  · exact h
  · exact h

theorem crud_close_cursor (H : CrudHeader) (s : CrudState) (fd : Int) (i : Int)
    (h : (s.crud_file_table i).position ≤ (s.crud_file_table i).length) :
    ((crud_close H s fd).2.crud_file_table i).position ≤
      ((crud_close H s fd).2.crud_file_table i).length := by
  unfold crud_close
  split_ifs with h1
  · simp only [setEntry_crud_file_table, Function.update_apply]
    split_ifs with h3
    · exact Nat.zero_le _
    · exact h
  · exact h

theorem crud_read_cursor (H : CrudHeader) (E : CrudEnv) (s : CrudState) (fd : Int)
    (buf : Nat → Nat) (count : Int) (i : Int)
    (h : (s.crud_file_table i).position ≤ (s.crud_file_table i).length)
    (h0 : 0 ≤ count) (h31 : count < 2 ^ 31)
    (hfit : ((s.crud_file_table i).length : Int) + count < 2 ^ 32) :
    ((crud_read H E s fd buf count).2.2.crud_file_table i).position ≤
      ((crud_read H E s fd buf count).2.2.crud_file_table i).length := by
  by_cases hi : i = fd
  · subst hi
    by_cases hg : s.crudInitialized = true ∧ 0 ≤ i ∧ i ≤ (H.CRUD_MAX_TOTAL_FILES : Int) ∧
        (s.crud_file_table i).is_open = true
    · obtain ⟨hinit, hlo, hhi, hopen⟩ := hg
      have hrd := crud_read_of_guard H E s i buf count hinit hlo hhi hopen _
        (read_bytes_eq _ _ count h h0 h31 (by omega)).symm
      rw [hrd]
      have hm0 : 0 ≤ min count (((s.crud_file_table i).length : Int) -
          ((s.crud_file_table i).position : Int)) := le_min h0 (by omega)
      have hm1 := min_le_right count (((s.crud_file_table i).length : Int) -
          ((s.crud_file_table i).position : Int))
      split_ifs
      · simp only [Function.update_same]
        rw [u32_add _ _ hm0 (by omega)]
        omega
      · exact h
    · simp only [crud_read, if_neg hg]
      exact h
  · rw [crud_read_other H E s fd buf count i hi]
    exact h

theorem crud_write_cursor (H : CrudHeader) (E : CrudEnv) (s : CrudState) (fd : Int)
    (buf : Nat → Nat) (count : Int) (i : Int)
    (h : (s.crud_file_table i).position ≤ (s.crud_file_table i).length) :
    ((crud_write H E s fd buf count).2.crud_file_table i).position ≤
      ((crud_write H E s fd buf count).2.crud_file_table i).length := by
  by_cases hi : i = fd
  · subst hi
    by_cases hg : s.crudInitialized = true ∧ 0 ≤ i ∧ i ≤ (H.CRUD_MAX_TOTAL_FILES : Int) ∧
        (s.crud_file_table i).is_open = true
    · obtain ⟨hinit, hlo, hhi, hopen⟩ := hg
      have hp := write_inner_read_position_le H E s i hinit hlo hhi hopen
      obtain ⟨x, hx⟩ := crud_write_inner_read H E s i hinit hlo hhi hopen
      have hw := crud_write_of_guard H E s i buf count hinit hlo hhi hopen _ hx.symm
      rw [hx] at hp
      simp only [Function.update_same] at hp
      rw [hw]
      simp only [Function.update_same, Function.update_idem]
      split_ifs with a b c d <;> simp only [Function.update_same] <;> omega
    · simp only [crud_write, if_neg hg]
      exact h
  · rw [crud_write_other H E s fd buf count i hi]
    exact h

theorem crud_open_cursor (H : CrudHeader) (E : CrudEnv) (s : CrudState) (path : String)
    (i : Int) (h : (s.crud_file_table i).position ≤ (s.crud_file_table i).length) :
    ((crud_open H E s path).2.crud_file_table i).position ≤
      ((crud_open H E s path).2.crud_file_table i).length := by
  rcases crud_open_table H E s path with h1 | ⟨j, -, -, h2⟩ | ⟨idx, oid, -, -, h3⟩
  · rw [h1]; exact h
  · rw [h2]
    simp only [Function.update_apply]
    split_ifs with hc
    · subst hc; exact h
    · exact h
  · rw [h3]
    simp only [Function.update_apply]
    split_ifs with hc
    · exact le_rfl
    · exact h

theorem crud_open_length (H : CrudHeader) (E : CrudEnv) (s : CrudState) (path : String)
    (i : Int) (hlo : 0 ≤ i) (hhi : i < (H.CRUD_MAX_TOTAL_FILES : Int))
    (hused : (s.crud_file_table i).filename ≠ "") :
    (s.crud_file_table i).length ≤ ((crud_open H E s path).2.crud_file_table i).length := by
  rcases crud_open_table H E s path with h1 | ⟨j, -, -, h2⟩ | ⟨idx, oid, hidx, -, h3⟩
  · rw [h1]
  · rw [h2]
    simp only [Function.update_apply]
    split_ifs with hc
    · subst hc; exact le_rfl
    · exact le_rfl
  · rw [h3]
    have hne : i ≠ (idx : Int) := by
      rintro rfl
      rcases hidx with hm | ⟨-, hf⟩
      · subst hm; omega
      · exact hused hf
    rw [Function.update_noteq hne]

/-- The `crud_unmount` call leaves the in-memory table as it was. -/
theorem crud_unmount_table (H : CrudHeader) (E : CrudEnv) (s : CrudState) :
    (crud_unmount H E s).2.crud_file_table = s.crud_file_table := by
  simp only [crud_unmount, crud_bus_request]
  split_ifs <;> rfl

/-- C15: for an entry `i` of the table (`0 ≤ i < CRUD_MAX_TOTAL_FILES`) that is
not free (non-empty filename), none of `crud_open`, `crud_close`, `crud_read`,
`crud_write`, `crud_seek` and `crud_unmount`, called with any arguments in any
session and with any bus responses, leaves the entry with a smaller length:
only `crud_format` and `crud_mount`, which overwrite the table, can lower it. -/
theorem length_never_decreases (H : CrudHeader) (E : CrudEnv) (s : CrudState) (i : Int)
    (path : String) (fd : Int) (buf : Nat → Nat) (count : Int) (loc : Nat)
    (hlo : 0 ≤ i) (hhi : i < (H.CRUD_MAX_TOTAL_FILES : Int))
    (hused : (s.crud_file_table i).filename ≠ "") :
    (s.crud_file_table i).length ≤ ((crud_open H E s path).2.crud_file_table i).length ∧
      (s.crud_file_table i).length ≤ ((crud_close H s fd).2.crud_file_table i).length ∧
      (s.crud_file_table i).length ≤
        ((crud_read H E s fd buf count).2.2.crud_file_table i).length ∧
      (s.crud_file_table i).length ≤
        ((crud_write H E s fd buf count).2.crud_file_table i).length ∧
      (s.crud_file_table i).length ≤ ((crud_seek H s fd loc).2.crud_file_table i).length ∧
      (s.crud_file_table i).length ≤ ((crud_unmount H E s).2.crud_file_table i).length :=
  ⟨crud_open_length H E s path i hlo hhi hused,
    le_of_eq (crud_close_length H s fd i).symm,
    le_of_eq (crud_read_length H E s fd buf count i).symm,
    crud_write_length H E s fd buf count i,
    le_of_eq (crud_seek_length H s fd loc i).symm,
    le_of_eq (by rw [crud_unmount_table])⟩

/-- Instance of `length_never_decreases` on the file of 100 bytes in slot 0: a
growing write makes its length 110, a failed one leaves it 100, opening
another path leaves it at least 100, and `crud_format` lowers it to 0. -/
theorem length_never_decreases_witness :
    ((demo_state true 90 100).crud_file_table 0).length = 100 ∧
      100 ≤ ((crud_open demo_header demo_env (demo_state true 90 100) "b.txt").2.crud_file_table
        0).length ∧
      ((crud_write demo_header demo_env (demo_state true 90 100) 0 (fun _ => 0xCD)
        20).2.crud_file_table 0).length = 110 ∧
      ((crud_write demo_header (demo_env_failing 2) (demo_state true 90 100) 0 (fun _ => 0xCD)
        20).2.crud_file_table 0).length = 100 ∧
      ((crud_format demo_header demo_env (demo_state true 90 100)).2.crud_file_table 0).length
        = 0 := by
  have h := length_never_decreases demo_header demo_env (demo_state true 90 100) 0 "b.txt" 0
    (fun _ => 0xCD) 20 0 (by decide) (by decide) (by decide)
  exact ⟨rfl, h.1, by decide, by decide, by decide⟩

/-- C20 (what the code does): for a count `0 ≤ count` (an `int32_t`): if every
entry of the table has position ≤ length and `length + count` fits 32 bits,
then every entry of the table still has position ≤ length after `crud_close`,
`crud_seek`, `crud_read` or `crud_write`, with any arguments and any bus
responses, and after `crud_open` of a path that with its terminating NUL fits
the filename array (`strlen path < CRUD_MAX_PATH_LENGTH`), with any bus
responses; and the table that `crud_format` leaves when INIT and FORMAT
succeed (all zero) has position ≤ length in every entry.  For a longer path
the unchecked `strcpy` of `crud_open` runs over the entries that follow the
free slot, and the invariant is not kept. -/
theorem cursor_invariant (H : CrudHeader) (E : CrudEnv) (s : CrudState) (path : String)
    (fd : Int) (buf : Nat → Nat) (count : Int) (loc : Nat)
    (h0 : 0 ≤ count) (h31 : count < 2 ^ 31) :
    (cursor_ok H s.crud_file_table →
      (∀ i : Int, 0 ≤ i → i < (H.CRUD_MAX_TOTAL_FILES : Int) →
        ((s.crud_file_table i).length : Int) + count < 2 ^ 32) →
      (strlen path < H.CRUD_MAX_PATH_LENGTH →
          cursor_ok H (crud_open H E s path).2.crud_file_table) ∧
        cursor_ok H (crud_close H s fd).2.crud_file_table ∧
        cursor_ok H (crud_seek H s fd loc).2.crud_file_table ∧
        cursor_ok H (crud_read H E s fd buf count).2.2.crud_file_table ∧
        cursor_ok H (crud_write H E s fd buf count).2.crud_file_table) ∧
    ((init_call H E s).response % 2 = 0 → (format_call H E s).response % 2 = 0 →
      cursor_ok H (crud_format H E s).2.crud_file_table) := by
  constructor
  · intro hinv hfit
    exact ⟨fun _ i a b => crud_open_cursor H E s path i (hinv i a b),
      fun i a b => crud_close_cursor H s fd i (hinv i a b),
      fun i a b => crud_seek_cursor H s fd loc i (hinv i a b),
      fun i a b => crud_read_cursor H E s fd buf count i (hinv i a b) h0 h31 (hfit i a b),
      fun i a b => crud_write_cursor H E s fd buf count i (hinv i a b)⟩
  · intro h1 h2 i a b
    have hf := crud_format_eq H E s
    rw [if_neg (by omega), if_neg (by omega)] at hf
    rw [hf]
    simp [table_store, a, b, zero_entry]

/-- The example table satisfies the cursor invariant. -/
theorem demo_cursor_ok : cursor_ok demo_header (demo_state true 90 100).crud_file_table := by
  intro i _ _
  simp only [demo_state, demo_table]
  split_ifs <;> simp [zero_entry]

/-- Instance of `cursor_invariant`: an open of `b.txt`, a short read, a write
whose UPDATE fails, and a format, all from the example table. -/
theorem cursor_invariant_witness :
    strlen "b.txt" < demo_header.CRUD_MAX_PATH_LENGTH ∧
      cursor_ok demo_header
        (crud_open demo_header demo_env (demo_state true 90 100) "b.txt").2.crud_file_table ∧
      cursor_ok demo_header
        (crud_read demo_header demo_env (demo_state true 90 100) 0 (fun _ => 0)
          20).2.2.crud_file_table ∧
      cursor_ok demo_header
        (crud_write demo_header (demo_env_failing 4) (demo_state true 90 100) 0 (fun _ => 0xCD)
          5).2.crud_file_table ∧
      cursor_ok demo_header
        (crud_format demo_header demo_env (demo_state true 90 100)).2.crud_file_table := by
  have h := cursor_invariant demo_header demo_env (demo_state true 90 100) "b.txt" 0
    (fun _ => 0) 20 0 (by decide) (by decide)
  have hw := cursor_invariant demo_header (demo_env_failing 4) (demo_state true 90 100) "b.txt" 0
    (fun _ => 0xCD) 5 0 (by decide) (by decide)
  have hfit : ∀ c : Int, c < 1000 → ∀ i : Int, 0 ≤ i → i < (demo_header.CRUD_MAX_TOTAL_FILES : Int) →
      (((demo_state true 90 100).crud_file_table i).length : Int) + c < 2 ^ 32 := by
    intro c hc i _ _
    simp only [demo_state, demo_table]
    split_ifs <;> simp [zero_entry] <;> omega
  exact ⟨by decide, (h.1 demo_cursor_ok (hfit 20 (by decide))).1 (by decide),
    (h.1 demo_cursor_ok (hfit 20 (by decide))).2.2.2.1,
    (hw.1 demo_cursor_ok (hfit 5 (by decide))).2.2.2.2,
    h.2 (by decide) (by decide)⟩

/-! ## Path uniqueness and the empty path -/

/-- The `crud_seek` call changes no filename. -/
theorem crud_seek_filename (H : CrudHeader) (s : CrudState) (fd : Int) (loc : Nat) (i : Int) :
    ((crud_seek H s fd loc).2.crud_file_table i).filename = (s.crud_file_table i).filename := by
  unfold crud_seek
  split_ifs
  · simp only [setEntry_crud_file_table, Function.update_apply]
    split_ifs with h
    · rw [h]
    · rfl
  · rfl
  · rfl

/-- The `crud_close` call changes no filename. -/
theorem crud_close_filename (H : CrudHeader) (s : CrudState) (fd : Int) (i : Int) :
    ((crud_close H s fd).2.crud_file_table i).filename = (s.crud_file_table i).filename := by
  unfold crud_close
  split_ifs
  · simp only [setEntry_crud_file_table, Function.update_apply]
    split_ifs with h
    · rw [h]
    · rfl
  · rfl

/-- The `crud_read` call changes no filename. -/
theorem crud_read_filename (H : CrudHeader) (E : CrudEnv) (s : CrudState) (fd : Int)
    (buf : Nat → Nat) (count : Int) (i : Int) :
    ((crud_read H E s fd buf count).2.2.crud_file_table i).filename =
      (s.crud_file_table i).filename := by
  by_cases hi : i = fd
  · subst hi
    simp only [crud_read, crud_bus_request]
    split_ifs <;> simp
  · rw [crud_read_other H E s fd buf count i hi]

/-- The `crud_write` call changes no filename. -/
theorem crud_write_filename (H : CrudHeader) (E : CrudEnv) (s : CrudState) (fd : Int)
    (buf : Nat → Nat) (count : Int) (i : Int) :
    ((crud_write H E s fd buf count).2.crud_file_table i).filename =
      (s.crud_file_table i).filename := by
  by_cases hi : i = fd
  · subst hi
    by_cases hg : s.crudInitialized = true ∧ 0 ≤ i ∧ i ≤ (H.CRUD_MAX_TOTAL_FILES : Int) ∧
        (s.crud_file_table i).is_open = true
    · obtain ⟨hinit, hlo, hhi, hopen⟩ := hg
      obtain ⟨x, hx⟩ := crud_write_inner_read H E s i hinit hlo hhi hopen
      have hw := crud_write_of_guard H E s i buf count hinit hlo hhi hopen _ hx.symm
      rw [hw]
      simp only [Function.update_same, Function.update_idem]
      split_ifs <;> simp only [Function.update_same]
    · simp only [crud_write, if_neg hg]
  · rw [crud_write_other H E s fd buf count i hi]

/-- Path uniqueness depends on the filenames only. -/
theorem paths_unique_of_filenames (H : CrudHeader) (t u : Int → CrudFileAllocationType)
    (h : ∀ i : Int, (u i).filename = (t i).filename) (ht : paths_unique H t) :
    paths_unique H u := by
  intro i j a b c d e f
  rw [h i] at e f
  rw [h j] at f
  exact ht i j a b c d e f

/-- The embedded `crud_open` keeps the filenames of the table unique: it writes
a filename only when no entry of the table holds it.  (For the source this is
the case of a path that fits the filename array.) -/
theorem crud_open_paths_unique (H : CrudHeader) (E : CrudEnv) (s : CrudState) (path : String)
    (hu : paths_unique H s.crud_file_table) :
    paths_unique H (crud_open H E s path).2.crud_file_table := by
  rcases crud_open_table H E s path with h1 | ⟨k, -, -, h2⟩ | ⟨idx, oid, hidx, hno, h3⟩
  · rw [h1]; exact hu
  · rw [h2]
    apply paths_unique_of_filenames H s.crud_file_table _ _ hu
    intro i
    simp only [Function.update_apply]
    split_ifs with hc
    · rw [hc]
    · rfl
  · rw [h3]
    have hnoI : ∀ i : Int, 0 ≤ i → i < (H.CRUD_MAX_TOTAL_FILES : Int) →
        (s.crud_file_table i).filename ≠ path := by
      intro i a b
      obtain ⟨n, rfl⟩ := Int.eq_ofNat_of_zero_le a
      exact hno n (by exact_mod_cast b)
    intro i j a b c d e f
    simp only [Function.update_apply] at e f
    by_cases hi : i = (idx : Int)
    · by_cases hj : j = (idx : Int)
      · rw [hi, hj]
      · rw [if_pos hi, if_neg hj] at f
        exact absurd f.symm (hnoI j c d)
    · by_cases hj : j = (idx : Int)
      · rw [if_neg hi, if_pos hj] at f
        exact absurd f (hnoI i a b)
      · rw [if_neg hi] at e
        rw [if_neg hi, if_neg hj] at f
        exact hu i j a b c d e f

/-- C21 (what the code does): if no two non-free entries of the file table have
the same filename, then the same holds after `crud_close`, `crud_read`,
`crud_write` and `crud_seek`, with any arguments, and after `crud_open` of a
path that with its terminating NUL fits the filename array
(`strlen path < CRUD_MAX_PATH_LENGTH`), in any session and with any bus
responses.  A longer path is stored cut off by the unchecked `strcpy` of
`crud_open`; the comparison of the next `crud_open` does not find it, and
the same stored name fills a second slot. -/
theorem path_uniqueness_preserved (H : CrudHeader) (E : CrudEnv) (s : CrudState) (path : String)
    (fd : Int) (buf : Nat → Nat) (count : Int) (loc : Nat)
    (hu : paths_unique H s.crud_file_table) :
    (strlen path < H.CRUD_MAX_PATH_LENGTH →
        paths_unique H (crud_open H E s path).2.crud_file_table) ∧
      paths_unique H (crud_close H s fd).2.crud_file_table ∧
      paths_unique H (crud_read H E s fd buf count).2.2.crud_file_table ∧
      paths_unique H (crud_write H E s fd buf count).2.crud_file_table ∧
      paths_unique H (crud_seek H s fd loc).2.crud_file_table :=
  ⟨fun _ => crud_open_paths_unique H E s path hu,
    paths_unique_of_filenames H _ _ (crud_close_filename H s fd) hu,
    paths_unique_of_filenames H _ _ (crud_read_filename H E s fd buf count) hu,
    paths_unique_of_filenames H _ _ (crud_write_filename H E s fd buf count) hu,
    paths_unique_of_filenames H _ _ (crud_seek_filename H s fd loc) hu⟩

/-- The example table has unique filenames. -/
theorem demo_paths_unique : paths_unique demo_header (demo_state true 90 100).crud_file_table := by
  intro i j _ _ _ _ e f
  simp only [demo_state, demo_table] at e f
  by_cases hi : i = 0
  · by_cases hj : j = 0
    · rw [hi, hj]
    · rw [if_pos hi, if_neg hj] at f
      simp [zero_entry] at f
  · rw [if_neg hi] at e
    simp [zero_entry] at e

/-- Instance of `path_uniqueness_preserved`: opening `b.txt` puts it in slot 1
and keeps the filenames unique; opening `a.txt` again returns its slot 0 and
fills no second slot. -/
theorem path_uniqueness_preserved_witness :
    strlen "b.txt" < demo_header.CRUD_MAX_PATH_LENGTH ∧
      paths_unique demo_header
        (crud_open demo_header demo_env (demo_state true 90 100) "b.txt").2.crud_file_table ∧
      ((crud_open demo_header demo_env (demo_state true 90 100) "b.txt").2.crud_file_table
        1).filename = "b.txt" ∧
      (crud_open demo_header demo_env (demo_state true 90 100) "a.txt").1 = 0 ∧
      ((crud_open demo_header demo_env (demo_state true 90 100) "a.txt").2.crud_file_table
        1).filename = "" :=
  ⟨by decide,
    (path_uniqueness_preserved demo_header demo_env (demo_state true 90 100) "b.txt" 0
      (fun _ => 0) 0 0 demo_paths_unique).1 (by decide), by decide, by decide, by decide⟩

/-- C22: in an initialized session, when `j` is the lowest index of the table
with an empty filename, `crud_open("")` takes the branch of an existing path:
it returns `j` and the state differs from the old one only in the open flag
of entry `j`, which is set; no transaction is made (no CREATE), the filename
of the entry is still empty and its object_id is unchanged. -/
theorem crud_open_empty_path (H : CrudHeader) (E : CrudEnv) (s : CrudState) (j : Nat)
    (hinit : s.crudInitialized = true) (hj : j < H.CRUD_MAX_TOTAL_FILES)
    (hfree : (s.crud_file_table (j : Int)).filename = "")
    (hlow : ∀ i : Nat, i < j → (s.crud_file_table (i : Int)).filename ≠ "") :
    crud_open H E s "" =
        ((j : Int), { s with
                      crud_file_table :=
                        Function.update s.crud_file_table (j : Int)
                          { s.crud_file_table (j : Int) with is_open := true } }) ∧
      calls_since s (crud_open H E s "").2 = [] ∧
      ((crud_open H E s "").2.crud_file_table (j : Int)).is_open = true ∧
      ((crud_open H E s "").2.crud_file_table (j : Int)).filename = "" ∧
      ((crud_open H E s "").2.crud_file_table (j : Int)).object_id =
        (s.crud_file_table (j : Int)).object_id := by
  have hl := crud_open_loop_found s.crud_file_table "" H.CRUD_MAX_TOTAL_FILES 0
    H.CRUD_MAX_TOTAL_FILES j (Nat.zero_le _) (by omega) hfree (fun i _ hi => hlow i hi)
  have he : crud_open H E s "" =
      ((j : Int), { s with
                    crud_file_table :=
                      Function.update s.crud_file_table (j : Int)
                        { s.crud_file_table (j : Int) with is_open := true } }) := by
    simp [crud_open, hinit, hl.1, hl.2, CrudState.setEntry]
  refine ⟨he, ?_, ?_, ?_, ?_⟩
  · apply calls_since_append
    rw [he]
    simp
  · rw [he]; simp
  · rw [he]; simp [hfree]
  · rw [he]; simp

/-- Instance of `crud_open_empty_path`: with `a.txt` in slot 0, opening the
empty path returns the free slot 1, now open and still unnamed. -/
theorem crud_open_empty_path_witness :
    (crud_open demo_header demo_env (demo_state true 90 100) "").1 = 1 ∧
      ((crud_open demo_header demo_env (demo_state true 90 100) "").2.crud_file_table 1).is_open
        = true ∧
      ((crud_open demo_header demo_env (demo_state true 90 100) "").2.crud_file_table 1).filename
        = "" ∧
      (crud_open demo_header demo_env (demo_state true 90 100) "").2.bus_log =
        (demo_state true 90 100).bus_log := by
  have h := (crud_open_empty_path demo_header demo_env (demo_state true 90 100) 1 rfl (by decide)
    (by decide) (by decide)).1
  refine ⟨?_, ?_, ?_, ?_⟩ <;> rw [h] <;> simp [demo_state, demo_table, zero_entry]

end CrudDriver
